import Mathlib

/-!
Shallow embedding of the LLM-Evaluation repository (Python) in Lean 4.

Python strings are modelled as `List Char`; Python floats are modelled as `ℚ`
(every arithmetic operation the program performs on the values we reason
about is exact at the magnitudes involved, see the comments at each site);
Python `None`-able values are `Option`; a raised exception is `Except.error`
carrying the exception's message.

Source files embedded:
  src/agents/evaluator_agents.py   (score extraction, the three evaluators)
  src/llm_providers/base.py        (LLMResponse, calculate_cost, _create_response)
  src/llm_providers/provider_factory.py
  src/llm_providers/mock_provider.py, openai_provider.py, anthropic_provider.py
  src/evaluation/engine.py         (run_evaluation, _evaluate_single_case,
                                    _generate_performance_metrics, _calculate_rankings)
-/

/-- Python whitespace characters recognised by `str.split()` and the regex
class `\s` (ASCII subset; the texts handled by this program are ASCII). -/
def isPySpace (c : Char) : Bool :=
  c = ' ' || c = '\t' || c = '\n' || c = '\x0d' || c = '\x0b' || c = '\x0c'

/-- Characters matched by the regex class `[0-9.]`. -/
def isDigitDot (c : Char) : Bool := c.isDigit || c = '.'

/-- Characters matched by the regex class `[:\s]`. -/
def isColonSpace (c : Char) : Bool := c = ':' || isPySpace c

/-- Python `s.lower()` (ASCII; `Char.toLower` lowers exactly `A`-`Z`). -/
def pyLower (s : List Char) : List Char := s.map Char.toLower

/-- Python `pat in s` for strings: substring containment. -/
def hasSubstr (pat s : List Char) : Bool := s.tails.any (fun t => pat.isPrefixOf t)

/-- Python `str.split()`: split on runs of whitespace, dropping empty pieces. -/
def pySplit (s : List Char) : List (List Char) :=
  match s with
  | [] => []
  | c :: cs =>
    if isPySpace c then pySplit cs
    else
      let w := (c :: cs).takeWhile (fun x => !isPySpace x)
      w :: pySplit ((c :: cs).drop w.length)
termination_by s.length
decreasing_by
  all_goals simp_all [List.takeWhile_cons]
  all_goals omega

/-- Python `dict` key order: first occurrence of each key, in encounter order
(used to model iteration over `model_category_stats.items()`). -/
def dedupFirst {α : Type} [DecidableEq α] : List α → List α
  | [] => []
  | a :: l => a :: (dedupFirst l).filter (fun x => x ≠ a)

/-- Decimal digit characters of a natural number (`Nat.toDigits 10`). -/
def natStr (n : ℕ) : List Char := Nat.toDigits 10 n

/-- Python `f"{q:.1f}"` for the nonnegative values produced by the evaluators.
At every call site in this program `10 * q` is an integer, so no decimal
rounding ever happens and Python's round-half-even never fires; `round` here
is exact. -/
def fmtFixed1 (q : ℚ) : List Char :=
  let n : ℕ := (round (10 * q)).toNat
  natStr (n / 10) ++ ['.'] ++ natStr (n % 10)

/-- Python `float(s)` for strings made of digits and dots (the only shape the
capture group `[0-9.]+` can produce): at most one dot and at least one digit,
otherwise `float` raises `ValueError`. -/
def pyFloat (s : List Char) : Option ℚ :=
  if s.count '.' = 0 then
    if s.isEmpty then none
    else some ((s.foldl (fun a c => 10 * a + (c.toNat - 48)) 0 : ℕ) : ℚ)
  else if s.count '.' = 1 then
    let intPart := s.takeWhile (fun c => c ≠ '.')
    let fracPart := s.drop (intPart.length + 1)
    if intPart.isEmpty && fracPart.isEmpty then none
    else
      some (((intPart.foldl (fun a c => 10 * a + (c.toNat - 48)) 0 : ℕ) : ℚ) +
        ((fracPart.foldl (fun a c => 10 * a + (c.toNat - 48)) 0 : ℕ) : ℚ) / 10 ^ fracPart.length)
  else none

/-- Match of the regex `kw[:\s]+([0-9.]+)` anchored at the head of `s`,
returning the capture group. The classes `[:\s]` and `[0-9.]` are disjoint,
so the greedy runs need no backtracking. -/
def matchKeyNum (kw s : List Char) : Option (List Char) :=
  if kw.isPrefixOf s then
    let rest := s.drop kw.length
    let ws := rest.takeWhile isColonSpace
    if ws.isEmpty then none
    else
      let num := (rest.drop ws.length).takeWhile isDigitDot
      if num.isEmpty then none else some num
  else none

/-- Python `re.search` for `kw[:\s]+([0-9.]+)`: leftmost match wins. -/
def searchKeyNum (kw : List Char) : List Char → Option (List Char)
  | [] => none
  | c :: cs =>
    match matchKeyNum kw (c :: cs) with
    | some g => some g
    | none => searchKeyNum kw cs

/-- Match of `([0-9.]+)\s*/\s*den` anchored at the head of `s`, returning the
capture group. `[0-9.]`, `\s` and `/` are pairwise disjoint, so the greedy
runs need no backtracking. -/
def matchSlashNum (den s : List Char) : Option (List Char) :=
  let num := s.takeWhile isDigitDot
  if num.isEmpty then none
  else
    let r1 := s.drop num.length
    let r2 := r1.drop (r1.takeWhile isPySpace).length
    match r2 with
    | '/' :: r3 =>
      let r4 := r3.drop (r3.takeWhile isPySpace).length
      if den.isPrefixOf r4 then some num else none
    | _ => none

/-- Python `re.search` for `([0-9.]+)\s*/\s*den`: leftmost match wins. -/
def searchSlashNum (den : List Char) : List Char → Option (List Char)
  | [] => none
  | c :: cs =>
    match matchSlashNum den (c :: cs) with
    | some g => some g
    | none => searchSlashNum den cs

/-- Combined pattern scan of `EvaluatorAgent._extract_score`: the four regexes
are tried in order on the lowered text; the first that matches anywhere wins. -/
def findScorePattern (low : List Char) : Option (List Char) :=
  match searchKeyNum ("score".toList) low with
  | some g => some g
  | none =>
    match searchKeyNum ("rating".toList) low with
    | some g => some g
    | none =>
      match searchSlashNum ("10".toList) low with
      | some g => some g
      | none => searchSlashNum ("100".toList) low

def positive_keywords : List (List Char) :=
  ["good".toList, "excellent".toList, "accurate".toList, "correct".toList,
   "comprehensive".toList]

def negative_keywords : List (List Char) :=
  ["poor".toList, "incorrect".toList, "inaccurate".toList, "incomplete".toList,
   "wrong".toList]

/-- Count of keywords occurring (as substrings, Python `in`) in the text. -/
def keywordCount (kws : List (List Char)) (low : List Char) : ℕ :=
  (kws.filter (fun w => hasSubstr w low)).length

/-- EvaluatorAgent._extract_score (src/agents/evaluator_agents.py:22-61).
`none` models the `ValueError` that `float()` raises on a malformed capture
such as `1.2.3`. -/
def extract_score (evaluation_text : List Char) : Option ℚ :=
  let low := pyLower evaluation_text
  match findScorePattern low with
  | some g =>
    match pyFloat g with
    | none => none
    | some score =>
      if hasSubstr ("/10".toList) low then some (score / 10)
      else if hasSubstr ("/100".toList) low then some (score / 100)
      else if score ≤ 1 then some score
      else if score ≤ 10 then some (score / 10)
      else some (score / 100)
  | none =>
    let positive_count := keywordCount positive_keywords low
    let negative_count := keywordCount negative_keywords low
    if positive_count > negative_count then some (75 / 100)
    else if negative_count > positive_count then some (35 / 100)
    else some (55 / 100)

/-- Row of the `test_cases` table (src/database/models.py:38-51). The
`expected_output` and `evaluation_criteria` columns are nullable. -/
structure TestCase where
  id : ℕ
  name : List Char
  category : List Char
  input_text : List Char
  expected_output : Option (List Char)
  evaluation_criteria : Option (List Char)
deriving DecidableEq, Inhabited, Repr

/-- Score-and-feedback pair assembled by every `evaluate_response`: the score
is `_extract_score` of the evaluation text, the feedback is the text itself.
`float()` inside `_extract_score` can raise; that propagates. -/
def evaluator_score (text : List Char) : Except (List Char) (ℚ × List Char) :=
  match extract_score text with
  | some q => Except.ok (q, text)
  | none => Except.error ("ValueError: could not convert string to float".toList)

/-- SummarizationEvaluator._mock_evaluation (evaluator_agents.py:113-140).
The two divisions raise `ZeroDivisionError` when the input text is empty,
respectively contains no words. -/
def summarization_mock_evaluation (input_text model_response : List Char) :
    Except (List Char) (List Char) :=
  let original_length := input_text.length
  let summary_length := model_response.length
  if original_length = 0 then Except.error ("ZeroDivisionError: division by zero".toList)
  else
    let compression : ℚ := (summary_length : ℚ) / (original_length : ℚ)
    let sf : ℚ × List Char :=
      if compression < 2 / 10 then
        (85 / 10, ("Excellent compression ratio. The summary effectively condenses the original text while maintaining key information.").toList)
      else if compression < 4 / 10 then
        (75 / 10, ("Good summarization with appropriate length reduction. Most key points are captured.").toList)
      else
        (6, ("Summary could be more concise. Consider reducing length while preserving essential information.").toList)
    let original_words := dedupFirst (pySplit (pyLower input_text))
    let summary_words := dedupFirst (pySplit (pyLower model_response))
    if original_words.length = 0 then Except.error ("ZeroDivisionError: division by zero".toList)
    else
      let overlap : ℚ :=
        ((original_words.filter (fun w => w ∈ summary_words)).length : ℚ) /
          (original_words.length : ℚ)
      let sf2 : ℚ × List Char :=
        if overlap > 3 / 10 then
          (sf.1 + 1, sf.2 ++ (" Good preservation of key terminology.").toList)
        else sf
      Except.ok (("Score: ").toList ++ fmtFixed1 (min sf2.1 10) ++
        ("\nFeedback: ").toList ++ sf2.2)

/-- QAEvaluator._mock_evaluation (evaluator_agents.py:178-207). A `None`
expected_output raises (`None.lower()`); an expected output with no words
raises `ZeroDivisionError`; an empty-string expected output is falsy and
selects the length/structure heuristic. -/
def qa_mock_evaluation (expected_output : Option (List Char)) (model_response : List Char) :
    Except (List Char) (List Char) :=
  match expected_output with
  | none => Except.error ("AttributeError: NoneType object has no attribute lower".toList)
  | some expRaw =>
    let expected := pyLower expRaw
    let response := pyLower model_response
    if !expected.isEmpty then
      let expected_words := dedupFirst (pySplit expected)
      let response_words := dedupFirst (pySplit response)
      if expected_words.length = 0 then
        Except.error ("ZeroDivisionError: division by zero".toList)
      else
        let overlap : ℚ :=
          ((expected_words.filter (fun w => w ∈ response_words)).length : ℚ) /
            (expected_words.length : ℚ)
        let sf : ℚ × List Char :=
          if overlap > 7 / 10 then
            (9, ("Excellent accuracy. The answer closely matches expected content with high keyword overlap.").toList)
          else if overlap > 5 / 10 then
            (75 / 10, ("Good accuracy. Most key information is present with reasonable alignment to expected answer.").toList)
          else
            (6, ("Moderate accuracy. Some expected information is missing or incorrectly stated.").toList)
        Except.ok (("Score: ").toList ++ fmtFixed1 sf.1 ++ ("\nFeedback: ").toList ++ sf.2)
    else
      let sf : ℚ × List Char :=
        if response.length > 50 && !hasSubstr ("?".toList) response then
          (7, ("Reasonable response length and structure. Answer appears complete and relevant.").toList)
        else
          (5, ("Response may be too brief or unclear. Consider providing more detailed information.").toList)
      Except.ok (("Score: ").toList ++ fmtFixed1 sf.1 ++ ("\nFeedback: ").toList ++ sf.2)

def structure_indicators : List (List Char) :=
  ["step".toList, "first".toList, "second".toList, "therefore".toList,
   "because".toList, "since".toList, "conclusion".toList]

def logical_words : List (List Char) :=
  ["if".toList, "then".toList, "and".toList, "or".toList, "not".toList,
   "all".toList, "some".toList, "therefore".toList]

/-- ReasoningEvaluator._mock_evaluation (evaluator_agents.py:245-279): base
score 5.0 on a 0-10 scale, additive bonuses only, capped at 10.0 by the
final `min`. The test case is not consulted. -/
def reasoning_mock_evaluation (model_response : List Char) : List Char :=
  let response := pyLower model_response
  let structure_count := keywordCount structure_indicators response
  let logical_count := keywordCount logical_words response
  let sf : ℚ × List Char :=
    if structure_count ≥ 3 then
      (5 + 2, ("Well-structured reasoning with clear step-by-step analysis.").toList)
    else if structure_count ≥ 1 then
      (5 + 1, ("Some structure present in the reasoning process.").toList)
    else
      (5, ("Reasoning could benefit from more structured approach.").toList)
  let sf2 : ℚ × List Char :=
    if logical_count ≥ 5 then
      (sf.1 + 2, sf.2 ++ (" Strong use of logical connectives and formal reasoning.").toList)
    else if logical_count ≥ 2 then
      (sf.1 + 1, sf.2 ++ (" Adequate use of logical language.").toList)
    else sf
  let sf3 : ℚ × List Char :=
    if response.length > 200 then
      (sf2.1 + 1, sf2.2 ++ (" Comprehensive explanation provided.").toList)
    else sf2
  ("Score: ").toList ++ fmtFixed1 (min sf3.1 10) ++ ("\nFeedback: ").toList ++ sf3.2

/-- SummarizationEvaluator.evaluate_response (evaluator_agents.py:88-111). -/
def summarization_evaluate (tc : TestCase) (model_response : List Char) :
    Except (List Char) (ℚ × List Char) := do
  let text ← summarization_mock_evaluation tc.input_text model_response
  evaluator_score text

/-- QAEvaluator.evaluate_response (evaluator_agents.py:167-176). -/
def qa_evaluate (tc : TestCase) (model_response : List Char) :
    Except (List Char) (ℚ × List Char) := do
  let text ← qa_mock_evaluation tc.expected_output model_response
  evaluator_score text

/-- ReasoningEvaluator.evaluate_response (evaluator_agents.py:234-243). -/
def reasoning_evaluate (tc : TestCase) (model_response : List Char) :
    Except (List Char) (ℚ × List Char) :=
  evaluator_score (reasoning_mock_evaluation model_response)

/-- Single-quote character, spliced into the Anthropic mock texts (sqc). -/
def sqc : List Char := [Char.ofNat 39]

/-- LLMResponse dataclass (src/llm_providers/base.py:6-15). -/
structure LLMResponse where
  content : List Char
  tokens_used : ℕ
  response_time_ms : ℚ
  cost_usd : ℚ
  model_name : List Char
  error : Option (List Char)
deriving DecidableEq, Inhabited, Repr

/-- The slice of the `model_config` dict a provider reads
(src/llm_providers/base.py:20-25 plus the `"provider"` key). `provider` is
`none` when the dict lacks the key (the engine always supplies it). -/
structure ProviderConfig where
  name : List Char
  provider : Option (List Char)
  model_id : List Char
  cost_per_1k_tokens : ℚ
  max_tokens : ℕ
deriving DecidableEq, Inhabited, Repr

/-- BaseLLMProvider.calculate_cost (base.py:37-39):
`(tokens_used / 1000) * cost_per_1k_tokens` with Python true division. -/
def calculate_cost (cfg : ProviderConfig) (tokens_used : ℚ) : ℚ :=
  tokens_used / 1000 * cfg.cost_per_1k_tokens

/-- Python truthiness of an optional string: `None` and `""` are falsy. -/
def pyFalsy : Option (List Char) → Bool
  | none => true
  | some s => s.isEmpty

/-- BaseLLMProvider._create_response (base.py:41-53). `elapsed_ms` stands for
the measured `(time.time() - start_time) * 1000`. The cost is zeroed exactly
when `error` is truthy (`if not error`). -/
def create_response (cfg : ProviderConfig) (content : List Char) (tokens_used : ℕ)
    (elapsed_ms : ℚ) (error : Option (List Char)) : LLMResponse :=
  { content := content
    tokens_used := tokens_used
    response_time_ms := elapsed_ms
    cost_usd := if pyFalsy error then calculate_cost cfg (tokens_used : ℚ) else 0
    model_name := cfg.name
    error := error }

/-- Outcome of a real API call attempt (network nondeterminism). -/
inductive ApiOutcome where
  | ok (content : List Char) (tokens : ℕ)
  | exn (message : List Char)
deriving DecidableEq, Inhabited, Repr

/-- Nondeterministic inputs of one `generate_completion` call: wall-clock
elapsed time, the `random.uniform` additive latency, the `random.choice`
index (taken modulo the template count), whether a real API key is configured
(`os.getenv` check), and the API outcome used when it is. -/
structure CallEnv where
  elapsed_ms : ℚ
  extra_delay_ms : ℚ
  choice : ℕ
  realKey : Bool
  api : ApiOutcome
deriving DecidableEq, Inhabited, Repr

/-- MockProvider._generate_mock_content (mock_provider.py:33-77); the three
`random.choice` template picks are modelled by `choice % 3`. -/
def mock_generate_content (cfg : ProviderConfig) (prompt : List Char) (choice : ℕ) :
    List Char :=
  let prompt_lower := pyLower prompt
  if hasSubstr ("summarize".toList) prompt_lower || hasSubstr ("summary".toList) prompt_lower then
    [("The main points of the text include: key developments in the field, important trends and patterns, and significant implications for stakeholders.").toList,
     ("Summary: The content discusses several critical aspects including primary findings, methodological approaches, and practical applications.").toList,
     ("Key takeaways from the text: major themes, supporting evidence, and conclusions drawn from the analysis.").toList].getD (choice % 3) []
  else if hasSubstr ("?".toList) prompt then
    [("Based on the available information, the answer addresses the specific question while providing relevant context and supporting details.").toList,
     ("The response to your question involves multiple factors that contribute to a comprehensive understanding of the topic.").toList,
     ("To answer your question: the key information indicates specific findings that directly relate to your inquiry.").toList].getD (choice % 3) []
  else if hasSubstr ("reasoning".toList) prompt_lower || hasSubstr ("logic".toList) prompt_lower
      || hasSubstr ("conclude".toList) prompt_lower then
    ("Following logical analysis:\n\nStep 1: Examine the given premises and identify key relationships\nStep 2: Apply relevant logical rules and principles\nStep 3: Draw valid conclusions based on the established premises\n\nTherefore, the logical conclusion follows from the systematic application of reasoning principles to the given information.").toList
  else
    ("This is a mock response from ").toList ++ cfg.name ++
      (". The system has processed your input and generated this sample output to demonstrate functionality. In a real implementation, this would contain the actual model response.").toList

/-- MockProvider.generate_completion (mock_provider.py:12-25):
`tokens = estimate_tokens(prompt + content) = len(prompt + content) // 4`,
response assembled by `_create_response` with no error. -/
def mock_generate (cfg : ProviderConfig) (prompt : List Char) (env : CallEnv) : LLMResponse :=
  let content := mock_generate_content cfg prompt env.choice
  let tokens_used := (prompt ++ content).length / 4
  create_response cfg content tokens_used env.elapsed_ms none

/-- OpenAIProvider._create_mock_response content selection
(openai_provider.py:50-58). -/
def openai_mock_content (cfg : ProviderConfig) (prompt : List Char) : List Char :=
  let prompt_lower := pyLower prompt
  if hasSubstr ("summarize".toList) prompt_lower || hasSubstr ("summary".toList) prompt_lower then
    ("This is a mock summary of the provided text. The key points include the main topics discussed and their relevance to the overall context.").toList
  else if hasSubstr ("?".toList) prompt then
    ("This is a mock answer to your question. The response addresses the key aspects of your inquiry with relevant information.").toList
  else if hasSubstr ("reasoning".toList) prompt_lower || hasSubstr ("logic".toList) prompt_lower then
    ("This is a mock reasoning response. Step 1: Analyze the premises. Step 2: Apply logical rules. Step 3: Draw conclusions based on the evidence.").toList
  else
    ("This is a mock response from ").toList ++ cfg.name ++
      (". The input was processed and this is the generated output based on the prompt.").toList

/-- OpenAIProvider.generate_completion (openai_provider.py:16-74). Without a
real key, the demo mock response is returned (tokens `len // 4`, latency with
a `random.uniform(100, 500)` additive term, cost via `calculate_cost`, no
error). With a real key, an API exception is caught and converted into a
response with `error` set and zero tokens/cost — it is never re-raised. -/
def openai_generate (cfg : ProviderConfig) (prompt : List Char) (env : CallEnv) : LLMResponse :=
  if !env.realKey then
    let content := openai_mock_content cfg prompt
    let tokens_used := (prompt ++ content).length / 4
    { content := content
      tokens_used := tokens_used
      response_time_ms := env.elapsed_ms + env.extra_delay_ms
      cost_usd := calculate_cost cfg (tokens_used : ℚ)
      model_name := cfg.name
      error := none }
  else
    match env.api with
    | ApiOutcome.ok content tokens => create_response cfg content tokens env.elapsed_ms none
    | ApiOutcome.exn msg =>
      create_response cfg [] 0 env.elapsed_ms (some (("OpenAI API error: ").toList ++ msg))

/-- AnthropicProvider._create_mock_response content selection
(anthropic_provider.py:45-85). -/
def anthropic_mock_content (cfg : ProviderConfig) (prompt : List Char) : List Char :=
  let prompt_lower := pyLower prompt
  if hasSubstr ("summarize".toList) prompt_lower || hasSubstr ("summary".toList) prompt_lower then
    ("Here").toList ++ sqc ++ ("s a comprehensive summary of the provided text:\n\nKey Points:\n• Primary topic areas covered in the original content\n• Significant developments and their implications\n• Important relationships between different concepts\n\nThis summary maintains the essential information while condensing the content for clarity.").toList
  else if hasSubstr ("?".toList) prompt then
    ("I").toList ++ sqc ++ ("ll address your question systematically:\n\nThe answer involves several key considerations:\n1. Direct response to your specific query\n2. Relevant context and background information\n3. Practical implications of this information\n\nThis approach ensures a thorough and helpful response to your inquiry.").toList
  else if hasSubstr ("reasoning".toList) prompt_lower || hasSubstr ("logic".toList) prompt_lower then
    ("Let me work through this logical problem step by step:\n\nAnalysis:\n1. First, I").toList ++ sqc ++ ("ll identify the given premises\n2. Then, I").toList ++ sqc ++ ("ll apply relevant logical principles\n3. Finally, I").toList ++ sqc ++ ("ll draw valid conclusions\n\nReasoning process:\n- Examining the logical structure\n- Identifying valid inferences\n- Ensuring sound conclusions\n\nTherefore, based on this systematic analysis, the logical conclusion follows from the given premises.").toList
  else
    ("I understand you").toList ++ sqc ++ ("re looking for assistance with this request. Let me provide a thoughtful response:\n\n").toList ++ cfg.name ++
      (" is designed to offer helpful, harmless, and honest responses. Based on your input, I").toList ++ sqc ++ ("ll provide relevant information while maintaining accuracy and clarity.\n\nThe response addresses your specific needs while following best practices for AI assistance.").toList

/-- AnthropicProvider.generate_completion (anthropic_provider.py:17-101).
The mock path computes `tokens_used = len(prompt + content) // 3.5` — a float
floor division whose value is an exact small integer (`⌊len·2/7⌋`), so the
later `int()` is the identity and the cost, computed before the `int()`,
equals `calculate_cost` of that integer. -/
def anthropic_generate (cfg : ProviderConfig) (prompt : List Char) (env : CallEnv) : LLMResponse :=
  if !env.realKey then
    let content := anthropic_mock_content cfg prompt
    let tokens_used := (prompt ++ content).length * 2 / 7
    { content := content
      tokens_used := tokens_used
      response_time_ms := env.elapsed_ms + env.extra_delay_ms
      cost_usd := calculate_cost cfg (tokens_used : ℚ)
      model_name := cfg.name
      error := none }
  else
    match env.api with
    | ApiOutcome.ok content tokens => create_response cfg content tokens env.elapsed_ms none
    | ApiOutcome.exn msg =>
      create_response cfg [] 0 env.elapsed_ms (some (("Anthropic API error: ").toList ++ msg))

/-- The three registered provider types (provider_factory.py:10-14). -/
inductive ProviderType where
  | openai
  | anthropic
  | mock
deriving DecidableEq, Inhabited, Repr

/-- LLMProviderFactory.create_provider (provider_factory.py:16-25):
`provider_type = model_config.get("provider", "mock")` — a missing key
silently defaults to `"mock"`; an unregistered explicit value raises
`ValueError`. -/
def create_provider (config_provider : Option (List Char)) :
    Except (List Char) ProviderType :=
  let provider_type := config_provider.getD ("mock".toList)
  if provider_type = ("openai").toList then Except.ok ProviderType.openai
  else if provider_type = ("anthropic").toList then Except.ok ProviderType.anthropic
  else if provider_type = ("mock").toList then Except.ok ProviderType.mock
  else Except.error (("Unknown provider type: ").toList ++ provider_type)

/-- Dispatch of `generate_completion` through the instance the factory built. -/
def generate_completion (pt : ProviderType) (cfg : ProviderConfig) (prompt : List Char)
    (env : CallEnv) : LLMResponse :=
  match pt with
  | ProviderType.openai => openai_generate cfg prompt env
  | ProviderType.anthropic => anthropic_generate cfg prompt env
  | ProviderType.mock => mock_generate cfg prompt env

/-- Row of the `llm_models` table (models.py:21-36); `provider` is a
non-nullable column. -/
structure LLMModel where
  id : ℕ
  name : List Char
  provider : List Char
  model_id : List Char
  cost_per_1k_tokens : ℚ
  max_tokens : ℕ
  is_active : Bool
deriving DecidableEq, Inhabited, Repr

/-- Row of the `evaluation_runs` table (models.py:8-19). -/
structure EvaluationRun where
  id : ℕ
  name : List Char
  description : List Char
  status : List Char
deriving DecidableEq, Inhabited, Repr

/-- Row of the `evaluation_results` table (models.py:53-77). -/
structure EvaluationResult where
  evaluation_run_id : ℕ
  model_id : ℕ
  test_case_id : ℕ
  model_output : List Char
  accuracy_score : ℚ
  response_time_ms : ℚ
  tokens_used : ℕ
  cost_usd : ℚ
  error_message : Option (List Char)
  agent_feedback : Option (List Char)
deriving DecidableEq, Inhabited, Repr

/-- Row of the `performance_metrics` table (models.py:79-105). The rank
columns are unset (NULL) at creation time, modelled by `0`; `overall_rank`
transiently holds the float point score during `_calculate_rankings`, hence
its type `ℚ` while the three other ranks are `ℕ`. -/
structure PerformanceMetrics where
  evaluation_run_id : ℕ
  model_id : ℕ
  category : List Char
  avg_accuracy : ℚ
  avg_response_time : ℚ
  total_cost : ℚ
  total_tokens : ℕ
  success_rate : ℚ
  accuracy_rank : ℕ
  speed_rank : ℕ
  cost_rank : ℕ
  overall_rank : ℚ
deriving DecidableEq, Inhabited, Repr

/-- Database state: the five tables (database.py exposes one SQLite DB). -/
structure DB where
  models : List LLMModel
  test_cases : List TestCase
  runs : List EvaluationRun
  results : List EvaluationResult
  metrics : List PerformanceMetrics
deriving DecidableEq, Inhabited, Repr

/-- The `model_config` dict built in _evaluate_single_case
(engine.py:126-132); the `"provider"` key is always present. -/
def model_config (m : LLMModel) : ProviderConfig :=
  { name := m.name
    provider := some m.provider
    model_id := m.model_id
    cost_per_1k_tokens := m.cost_per_1k_tokens
    max_tokens := m.max_tokens }

/-- Evaluator lookup plus `evaluate_response` dispatch: the
`self.evaluators` dict of EvaluationEngine (engine.py:17-21, 140-153).
An unknown category raises `ValueError` (engine.py:141-142). -/
def evaluator_dispatch (tc : TestCase) (content : List Char) :
    Except (List Char) (ℚ × List Char) :=
  if tc.category = ("summarization").toList then summarization_evaluate tc content
  else if tc.category = ("qa").toList then qa_evaluate tc content
  else if tc.category = ("reasoning").toList then reasoning_evaluate tc content
  else Except.error (("No evaluator found for category: ").toList ++ tc.category)

/-- EvaluationEngine._evaluate_single_case (engine.py:118-173): create the
provider, generate the completion (provider-internal failures are captured in
`LLMResponse.error`, not raised), evaluate, and build the result row. An
`Except.error` models an exception escaping this function. The per-call
nondeterminism is supplied by `env`. -/
def evaluate_single_case (env : LLMModel → TestCase → CallEnv) (eval_run_id : ℕ)
    (m : LLMModel) (tc : TestCase) : Except (List Char) EvaluationResult := do
  let pt ← create_provider (model_config m).provider
  let llm_response := generate_completion pt (model_config m) tc.input_text (env m tc)
  let evaluation ← evaluator_dispatch tc llm_response.content
  Except.ok
    { evaluation_run_id := eval_run_id
      model_id := m.id
      test_case_id := tc.id
      model_output := llm_response.content
      accuracy_score := evaluation.1
      response_time_ms := llm_response.response_time_ms
      tokens_used := llm_response.tokens_used
      cost_usd := llm_response.cost_usd
      error_message := llm_response.error
      agent_feedback := some evaluation.2 }

/-- The error row persisted when a pair's attempt raises
(engine.py:77-89): zero score, latency, tokens and cost, empty output,
`error_message` set to the exception message, no agent feedback. -/
def error_result (eval_run_id : ℕ) (m : LLMModel) (tc : TestCase) (e : List Char) :
    EvaluationResult :=
  { evaluation_run_id := eval_run_id
    model_id := m.id
    test_case_id := tc.id
    model_output := []
    accuracy_score := 0
    response_time_ms := 0
    tokens_used := 0
    cost_usd := 0
    error_message := some e
    agent_feedback := none }

/-- The nested pair loop of run_evaluation (engine.py:67-90): every
(model, test case) pair appends exactly one row — the evaluated row, or the
error row when the attempt raised. -/
def run_pairs (env : LLMModel → TestCase → CallEnv) (eval_run_id : ℕ)
    (models : List LLMModel) (test_cases : List TestCase) : List EvaluationResult :=
  models.flatMap (fun m =>
    test_cases.map (fun tc =>
      match evaluate_single_case env eval_run_id m tc with
      | Except.ok result => result
      | Except.error e => error_result eval_run_id m tc e))

/-- Whether a pair's attempt returns normally, i.e. _evaluate_single_case
does not raise for it (engine.py:70-75). -/
def pair_ok (env : LLMModel → TestCase → CallEnv) (eval_run_id : ℕ)
    (m : LLMModel) (tc : TestCase) : Bool :=
  match evaluate_single_case env eval_run_id m tc with
  | Except.ok _ => true
  | Except.error _ => false

/-- The run's result rows already flushed to the database when the pair loop
ends. Sessions are created with `autoflush=False` (database.py:19), so a row
that was `db.add`-ed but not yet flushed is invisible to queries on the same
session. A successful pair commits inside _evaluate_single_case
(engine.py:169-170), which flushes every row pending at that moment —
including the error rows of earlier raised pairs, which are added without a
commit of their own (engine.py:89). Error rows of raised pairs that come
after the last successful pair are still pending when the loop ends, so the
flushed rows are exactly the pair rows up to and including the last
successful pair (none if every pair raised). -/
def flushed_results (env : LLMModel → TestCase → CallEnv) (eval_run_id : ℕ)
    (models : List LLMModel) (test_cases : List TestCase) : List EvaluationResult :=
  let flags := models.flatMap (fun m =>
    test_cases.map (fun tc => pair_ok env eval_run_id m tc))
  (run_pairs env eval_run_id models test_cases).take
    (flags.length - (flags.reverse.takeWhile (fun b => !b)).length)

/-- Success test used throughout aggregation (`if not result.error_message`,
engine.py:207, 247): Python truthiness, so `None` and `""` both count as
success. -/
def is_success (r : EvaluationResult) : Bool := pyFalsy r.error_message

/-- The rows accumulated for one `(model_id, category)` key of
`model_category_stats` (engine.py:187-212); the category of a result is that
of its related test case, resolved by `tcat`. -/
def group_rows (tcat : ℕ → List Char) (results : List EvaluationResult)
    (key : ℕ × List Char) : List EvaluationResult :=
  results.filter (fun r => r.model_id = key.1 && tcat r.test_case_id = key.2)

/-- The per-(model, category) metric row (engine.py:214-240): averages over
successful rows only (0.0 if none), totals over successful rows,
`success_rate = success_count / total_count`. -/
def stats_metric (eval_run_id : ℕ) (tcat : ℕ → List Char)
    (results : List EvaluationResult) (key : ℕ × List Char) : PerformanceMetrics :=
  let rows := group_rows tcat results key
  let succ := rows.filter is_success
  { evaluation_run_id := eval_run_id
    model_id := key.1
    category := key.2
    avg_accuracy := if succ.isEmpty then 0
      else (succ.map (fun r => r.accuracy_score)).sum / (succ.length : ℚ)
    avg_response_time := if succ.isEmpty then 0
      else (succ.map (fun r => r.response_time_ms)).sum / (succ.length : ℚ)
    total_cost := if succ.isEmpty then 0 else (succ.map (fun r => r.cost_usd)).sum
    total_tokens := if succ.isEmpty then 0 else (succ.map (fun r => r.tokens_used)).sum
    success_rate := (succ.length : ℚ) / (rows.length : ℚ)
    accuracy_rank := 0
    speed_rank := 0
    cost_rank := 0
    overall_rank := 0 }

/-- The per-model `"overall"` metric row (engine.py:242-273): a fresh
aggregation over the model's full result set for the run. -/
def overall_metric (eval_run_id : ℕ) (results : List EvaluationResult)
    (m : LLMModel) : PerformanceMetrics :=
  let model_results := results.filter (fun r => r.model_id = m.id)
  let successful_results := model_results.filter is_success
  { evaluation_run_id := eval_run_id
    model_id := m.id
    category := ("overall").toList
    avg_accuracy := if successful_results.isEmpty then 0
      else (successful_results.map (fun r => r.accuracy_score)).sum /
        (successful_results.length : ℚ)
    avg_response_time := if successful_results.isEmpty then 0
      else (successful_results.map (fun r => r.response_time_ms)).sum /
        (successful_results.length : ℚ)
    total_cost := if successful_results.isEmpty then 0
      else (successful_results.map (fun r => r.cost_usd)).sum
    total_tokens := if successful_results.isEmpty then 0
      else (successful_results.map (fun r => r.tokens_used)).sum
    success_rate := (successful_results.length : ℚ) / (model_results.length : ℚ)
    accuracy_rank := 0
    speed_rank := 0
    cost_rank := 0
    overall_rank := 0 }

/-- EvaluationEngine._generate_performance_metrics (engine.py:175-278) up to
the ranking step: one row per `(model_id, category)` key in first-encounter
order (Python dict iteration), then one `"overall"` row per model that has
any results. -/
def generate_performance_metrics (eval_run_id : ℕ) (tcat : ℕ → List Char)
    (results : List EvaluationResult) (models : List LLMModel) :
    List PerformanceMetrics :=
  let keys := dedupFirst (results.map (fun r => (r.model_id, tcat r.test_case_id)))
  let per_category := keys.map (stats_metric eval_run_id tcat results)
  let overall := models.flatMap (fun m =>
    if (results.filter (fun r => r.model_id = m.id)).isEmpty then []
    else [overall_metric eval_run_id results m])
  per_category ++ overall

/-- Order produced by Python `sorted(..., key, reverse=True)` on positions
`0..n-1`: stable, so ties keep the smaller original position first. The
relation is total, transitive and antisymmetric on distinct positions, which
pins the sorted order down uniquely. -/
def descLe (key : ℕ → ℚ) (i j : ℕ) : Bool :=
  decide (key j < key i) || (decide (key i = key j) && decide (i ≤ j))

/-- Order produced by Python `sorted(..., key)` (ascending, stable). -/
def ascLe (key : ℕ → ℚ) (i j : ℕ) : Bool :=
  decide (key i < key j) || (decide (key i = key j) && decide (i ≤ j))

/-- Rank assigned by `for rank, metric in enumerate(sorted_..., 1)`: the
element at sorted position p gets rank p + 1, i.e. position j of the original
list gets `1 +` its position in the sorted order. -/
def rankOf (ord : List ℕ) (j : ℕ) : ℕ := ord.indexOf j + 1

/-- Positions of a category group stably sorted by `avg_accuracy` descending
(`sorted_by_accuracy`, engine.py:299). -/
def rg_accOrder (g : List PerformanceMetrics) : List ℕ :=
  (List.range g.length).mergeSort (descLe (fun j => (g.getD j default).avg_accuracy))

/-- Positions stably sorted by `avg_response_time` ascending
(`sorted_by_speed`, engine.py:304). -/
def rg_speedOrder (g : List PerformanceMetrics) : List ℕ :=
  (List.range g.length).mergeSort (ascLe (fun j => (g.getD j default).avg_response_time))

/-- Positions stably sorted by `total_cost` ascending (`sorted_by_cost`,
engine.py:309). -/
def rg_costOrder (g : List PerformanceMetrics) : List ℕ :=
  (List.range g.length).mergeSort (ascLe (fun j => (g.getD j default).total_cost))

/-- The weighted point score (`overall_score`, engine.py:316-320) of the
group member at position `j`, in terms of the three ranks just assigned:
`(n − accuracy_rank + 1)·0.5 + (n − speed_rank + 1)·0.25 +
(n − cost_rank + 1)·0.25`. -/
def rg_points (g : List PerformanceMetrics) (j : ℕ) : ℚ :=
  ((g.length : ℚ) - (rankOf (rg_accOrder g) j : ℚ) + 1) * (5 / 10) +
  ((g.length : ℚ) - (rankOf (rg_speedOrder g) j : ℚ) + 1) * (25 / 100) +
  ((g.length : ℚ) - (rankOf (rg_costOrder g) j : ℚ) + 1) * (25 / 100)

/-- Positions stably sorted by point score descending (`sorted_by_overall`,
engine.py:324). The Python code transiently stores the float point score in
the `overall_rank` field (engine.py:321) and reads it back only as this sort
key, so the embedding sorts by the score directly. -/
def rg_overallOrder (g : List PerformanceMetrics) : List ℕ :=
  (List.range g.length).mergeSort (descLe (rg_points g))

/-- One category group of EvaluationEngine._calculate_rankings
(engine.py:296-326). The Python code mutates the metric objects in place;
here the group is rebuilt positionally with the three criterion ranks and
the final overall rank (the 1-based position under descending point score,
which overwrites the transiently stored float score, engine.py:323-326). -/
def rank_group (g : List PerformanceMetrics) : List PerformanceMetrics :=
  (List.range g.length).map (fun j =>
    { g.getD j default with
      accuracy_rank := rankOf (rg_accOrder g) j
      speed_rank := rankOf (rg_speedOrder g) j
      cost_rank := rankOf (rg_costOrder g) j
      overall_rank := (rankOf (rg_overallOrder g) j : ℚ) })

/-- EvaluationEngine._calculate_rankings (engine.py:280-326): group the run's
metric rows by category in first-encounter order and rank within each group.
The Python code updates the rows in place inside an unordered table; the
grouped concatenation returned here carries the same rows. -/
def calculate_rankings (metrics : List PerformanceMetrics) : List PerformanceMetrics :=
  let cats := dedupFirst (metrics.map (fun m => m.category))
  cats.flatMap (fun c => rank_group (metrics.filter (fun m => m.category = c)))

/-- The summary dict returned by run_evaluation (engine.py:101-107). -/
structure RunSummary where
  evaluation_id : ℕ
  status : List Char
  total_results : ℕ
  models_evaluated : ℕ
  test_cases_run : ℕ
deriving DecidableEq, Inhabited, Repr

/-- Autoincrement primary key for `evaluation_runs`: one more than the
largest id in the table. -/
def next_run_id (db : DB) : ℕ := (db.runs.map (fun r => r.id)).foldr max 0 + 1

/-- Status update (`eval_run.status = ...; db.commit()`). -/
def set_run_status (db : DB) (rid : ℕ) (s : List Char) : DB :=
  { db with runs := db.runs.map (fun r => if r.id = rid then { r with status := s } else r) }

/-- Category of the test case with the given id (the ORM relationship
`result.test_case.category`; ids are unique primary keys). -/
def tcatOf (tcs : List TestCase) (tcid : ℕ) : List Char :=
  ((tcs.find? (fun t => t.id = tcid)).map (fun t => t.category)).getD []

/-- The model query of run_evaluation (engine.py:46-49): requested ids that
are active, in table order. -/
def resolve_models (db : DB) (model_ids : List ℕ) : List LLMModel :=
  db.models.filter (fun m => model_ids.contains m.id && m.is_active)

/-- The test-case query of run_evaluation (engine.py:51-57). Python
truthiness: an empty `test_case_ids` or `categories` list disables that
filter (`if test_case_ids:` / `if categories:`). -/
def resolve_test_cases (db : DB) (test_case_ids : Option (List ℕ))
    (categories : Option (List (List Char))) : List TestCase :=
  let tcs1 : List TestCase := match test_case_ids with
    | some ids => if !ids.isEmpty then db.test_cases.filter (fun t => ids.contains t.id)
      else db.test_cases
    | none => db.test_cases
  match categories with
  | some cs => if !cs.isEmpty then tcs1.filter (fun t => cs.contains t.category) else tcs1
  | none => tcs1

/-- EvaluationEngine.run_evaluation (engine.py:24-116). The run row is
created and committed first; the model and test-case sets are resolved; an
empty resolved set raises `ValueError`, which the outer handler turns into a
`"failed"` status on the already-persisted run row before re-raising.
Otherwise all pairs are attempted. The session has `autoflush=False`
(database.py:19), so the metric generation that follows works on what has
been flushed, not on everything added: its result query (engine.py:182) sees
the run's rows only up to the last successful pair (`flushed_results`), and
the ranking query (engine.py:284) sees only metric rows committed before
this call — the metric rows just added are still pending there, so the
ranking pass mutates only previously committed rows of this run id and the
new rows are persisted by the commit at engine.py:278 with their rank
columns still unset. That final commit also flushes the trailing error rows,
so the results table ends up holding every pair row; the run is then marked
`"completed"` (engine.py:96-97). -/
def run_evaluation (env : LLMModel → TestCase → CallEnv) (db : DB)
    (evaluation_name : List Char) (model_ids : List ℕ)
    (test_case_ids : Option (List ℕ)) (categories : Option (List (List Char))) :
    DB × Except (List Char) RunSummary :=
  let rid := next_run_id db
  let eval_run : EvaluationRun :=
    { id := rid
      name := evaluation_name
      description := ("Evaluation of ").toList ++ natStr model_ids.length ++ (" models").toList
      status := ("running").toList }
  let db1 := { db with runs := db.runs ++ [eval_run] }
  let models := resolve_models db model_ids
  let test_cases := resolve_test_cases db test_case_ids categories
  if models.isEmpty then
    (set_run_status db1 rid (("failed").toList),
     Except.error (("No active models found for evaluation").toList))
  else if test_cases.isEmpty then
    (set_run_status db1 rid (("failed").toList),
     Except.error (("No test cases found for evaluation").toList))
  else
    let results := run_pairs env rid models test_cases
    let query_results : List EvaluationResult :=
      (db1.results ++ flushed_results env rid models test_cases).filter
        (fun r => r.evaluation_run_id = rid)
    let new_metrics := generate_performance_metrics rid (tcatOf db.test_cases)
      query_results models
    let ranked_old : List PerformanceMetrics := calculate_rankings
      (db1.metrics.filter (fun mm => mm.evaluation_run_id = rid))
    let db2 := { db1 with
      results := db1.results ++ results
      metrics := db1.metrics.filter (fun mm => mm.evaluation_run_id ≠ rid) ++
        ranked_old ++ new_metrics }
    let db3 := set_run_status db2 rid (("completed").toList)
    (db3, Except.ok
      { evaluation_id := rid
        status := ("completed").toList
        total_results := results.length
        models_evaluated := models.length
        test_cases_run := test_cases.length })

/-- Spec-side reading of aggregation Steps 1-2: a *failed attempt* is a row
with non-null `error_message`; it counts toward `total_count` but is excluded
from the score/latency/cost/token aggregates and from the success-rate
numerator. Identical to `stats_metric` except that the success test is
`error_message = none` (null check) instead of Python truthiness; the two are
compared over the rows a run actually persists. -/
def stats_metric_null (eval_run_id : ℕ) (tcat : ℕ → List Char)
    (results : List EvaluationResult) (key : ℕ × List Char) : PerformanceMetrics :=
  let rows := group_rows tcat results key
  let succ := rows.filter (fun r => r.error_message = none)
  { evaluation_run_id := eval_run_id
    model_id := key.1
    category := key.2
    avg_accuracy := if succ.isEmpty then 0
      else (succ.map (fun r => r.accuracy_score)).sum / (succ.length : ℚ)
    avg_response_time := if succ.isEmpty then 0
      else (succ.map (fun r => r.response_time_ms)).sum / (succ.length : ℚ)
    total_cost := if succ.isEmpty then 0 else (succ.map (fun r => r.cost_usd)).sum
    total_tokens := if succ.isEmpty then 0 else (succ.map (fun r => r.tokens_used)).sum
    success_rate := (succ.length : ℚ) / (rows.length : ℚ)
    accuracy_rank := 0
    speed_rank := 0
    cost_rank := 0
    overall_rank := 0 }

/-- Spec-side weighted point score of the overall ranking (spec 4.2 Step 4):
`points = (N − accuracy_rank + 1)×0.5 + (N − speed_rank + 1)×0.25 +
(N − cost_rank + 1)×0.25`, evaluated on a metric row's persisted rank
fields. -/
def spec_points (n : ℕ) (x : PerformanceMetrics) : ℚ :=
  ((n : ℚ) - (x.accuracy_rank : ℚ) + 1) * (5 / 10) +
  ((n : ℚ) - (x.speed_rank : ℚ) + 1) * (25 / 100) +
  ((n : ℚ) - (x.cost_rank : ℚ) + 1) * (25 / 100)

/-- Concrete inputs: a run whose single pair hits a captured provider error
(real API key configured, API raises). -/
def envC1 : LLMModel → TestCase → CallEnv := fun _ _ =>
  { elapsed_ms := 100, extra_delay_ms := 0, choice := 0, realKey := true,
    api := ApiOutcome.exn (("boom").toList) }

def mC1 : LLMModel :=
  { id := 1, name := ("m").toList, provider := ("openai").toList,
    model_id := ("gpt-4").toList, cost_per_1k_tokens := 2, max_tokens := 100,
    is_active := true }

def tC1 : TestCase :=
  { id := 1, name := ("t").toList, category := ("reasoning").toList,
    input_text := ("x").toList, expected_output := none, evaluation_criteria := none }

def dbC1 : DB := { models := [mC1], test_cases := [tC1], runs := [], results := [], metrics := [] }

/-- Concrete inputs: an environment with all-default call data and an empty
database (no models at all, hence no active models). -/
def env0 : LLMModel → TestCase → CallEnv := fun _ _ => default

def dbEmpty : DB := { models := [], test_cases := [], runs := [], results := [], metrics := [] }

/-- Concrete inputs for a successful mock-provider pair. -/
def mC8 : LLMModel :=
  { id := 1, name := ("m").toList, provider := ("mock").toList,
    model_id := ("x").toList, cost_per_1k_tokens := 2, max_tokens := 100,
    is_active := true }

def tC8 : TestCase :=
  { id := 1, name := ("t").toList, category := ("reasoning").toList,
    input_text := ("hi").toList, expected_output := none, evaluation_criteria := none }

def envC8 : LLMModel → TestCase → CallEnv := fun _ _ =>
  { elapsed_ms := 5, extra_delay_ms := 0, choice := 0, realKey := false, api := default }

/-- The result row the successful mock pair produces. -/
def rC8 : EvaluationResult := (evaluate_single_case envC8 1 mC8 tC8).toOption.getD default

/-- A database holding just the active mock model and the reasoning test
case: a minimal run in which every pair succeeds. -/
def dbC8run : DB :=
  { models := [mC8], test_cases := [tC8], runs := [], results := [], metrics := [] }

/-- An active model whose provider string is "local" — one of the provider
values the schema documents (models.py:27) but which the factory does not
register, so every pair attempted against it raises. -/
def mLocal : LLMModel :=
  { id := 1, name := ("lm").toList, provider := ("local").toList,
    model_id := ("l").toList, cost_per_1k_tokens := 1, max_tokens := 10,
    is_active := true }

/-- A database whose only model raises on every pair. -/
def dbLocal : DB :=
  { models := [mLocal], test_cases := [tC8], runs := [], results := [], metrics := [] }

/-- Concrete metric rows (one category group of size 2) for exercising the
ranking step. -/
def pmRow (mid : ℕ) (acc rt cost : ℚ) : PerformanceMetrics :=
  { evaluation_run_id := 1, model_id := mid, category := ("a").toList,
    avg_accuracy := acc, avg_response_time := rt, total_cost := cost,
    total_tokens := 0, success_rate := 1, accuracy_rank := 0, speed_rank := 0,
    cost_rank := 0, overall_rank := 0 }

def msC4 : List PerformanceMetrics := [pmRow 1 (1 / 2) 100 3, pmRow 2 (3 / 4) 50 5]

/-- Concrete result rows for exercising aggregation: one success and one
failed attempt of the same (model, category) key. -/
def rOkC5 : EvaluationResult :=
  { evaluation_run_id := 1, model_id := 1, test_case_id := 1,
    model_output := ("out").toList, accuracy_score := 1 / 2,
    response_time_ms := 10, tokens_used := 4, cost_usd := 1 / 100,
    error_message := none, agent_feedback := none }

def rErrC5 : EvaluationResult :=
  { evaluation_run_id := 1, model_id := 1, test_case_id := 2,
    model_output := [], accuracy_score := 0, response_time_ms := 0,
    tokens_used := 0, cost_usd := 0, error_message := some (("boom").toList),
    agent_feedback := none }

def tcatC5 : ℕ → List Char := fun _ => ("qa").toList

/-- The (run, category) group of metric rows after ranking: the rows of the
ranked table that carry the given category label. -/
def cr_group (ms : List PerformanceMetrics) (c : List Char) : List PerformanceMetrics :=
  (calculate_rankings ms).filter (fun m => m.category = c)

/-- A model's full result set for a run (spec 4.2 Step 3). -/
def model_rows (results : List EvaluationResult) (mid : ℕ) : List EvaluationResult :=
  results.filter (fun r => r.model_id = mid)

/-- The successful results (null error_message) of a model's result set. -/
def model_success_rows (results : List EvaluationResult) (mid : ℕ) : List EvaluationResult :=
  (model_rows results mid).filter (fun r => r.error_message = none)

/-- The single row the pair loop appends for one (model, test case) pair
(engine.py:70-90): the evaluated row, or the zeroed error row if the attempt
raised. -/
def pair_row (env : LLMModel → TestCase → CallEnv) (eval_run_id : ℕ) (m : LLMModel)
    (tc : TestCase) : EvaluationResult :=
  match evaluate_single_case env eval_run_id m tc with
  | Except.ok result => result
  | Except.error e => error_result eval_run_id m tc e

deriving instance DecidableEq for Except

/-! ### General list infrastructure -/

theorem mem_dedupFirst {α : Type} [DecidableEq α] {a : α} {l : List α} :
    a ∈ dedupFirst l ↔ a ∈ l := by
  induction l with
  | nil => simp [dedupFirst]
  | cons b t ih =>
    by_cases hab : a = b
    · subst hab; simp [dedupFirst]
    · simp [dedupFirst, hab, List.mem_filter, ih]

theorem nodup_dedupFirst {α : Type} [DecidableEq α] (l : List α) : (dedupFirst l).Nodup := by
  induction l with
  | nil => simp [dedupFirst]
  | cons b t ih =>
    simp only [dedupFirst]
    refine List.Nodup.cons ?_ (List.Nodup.filter _ ih)
    intro hb
    have h2 := (List.mem_filter.mp hb).2
    simp at h2

theorem getD_map_range {β : Type} (f : ℕ → β) {n j : ℕ} (h : j < n) (d : β) :
    ((List.range n).map f).getD j d = f j := by
  rw [List.getD_eq_getElem?_getD, List.getElem?_map, List.getElem?_range h]
  rfl

theorem map_getD_range {β γ : Type} (l : List β) (f : β → γ) (d : β) :
    (List.range l.length).map (fun j => f (l.getD j d)) = l.map f := by
  apply List.ext_get
  · simp
  · intro n h1 h2
    simp only [List.get_map, List.get_range]
    rw [List.getD_eq_get l d (by simpa using h1)]

theorem le_foldr_max {a : ℕ} {l : List ℕ} (h : a ∈ l) : a ≤ l.foldr max 0 := by
  induction l with
  | nil => cases h
  | cons b t ih =>
    rcases List.mem_cons.mp h with rfl | h2
    · exact le_max_left _ _
    · exact le_trans (ih h2) (le_max_right _ _)

theorem next_run_id_not_mem (db : DB) (r : EvaluationRun) (h : r ∈ db.runs) :
    r.id ≠ next_run_id db := by
  have h2 := le_foldr_max (l := db.runs.map (fun x => x.id)) (List.mem_map_of_mem _ h)
  simp only [next_run_id]
  omega

/-! ### Properties of the stable sorting orders -/

theorem descLe_trans (key : ℕ → ℚ) (a b c : ℕ) (h1 : descLe key a b = true)
    (h2 : descLe key b c = true) : descLe key a c = true := by
  simp only [descLe, Bool.or_eq_true, Bool.and_eq_true, decide_eq_true_eq] at *
  rcases h1 with h1 | ⟨e1, i1⟩ <;> rcases h2 with h2 | ⟨e2, i2⟩
  · exact Or.inl (lt_trans h2 h1)
  · exact Or.inl (e2 ▸ h1)
  · exact Or.inl (e1 ▸ h2)
  · exact Or.inr ⟨e1.trans e2, le_trans i1 i2⟩

theorem descLe_total (key : ℕ → ℚ) (a b : ℕ) :
    (descLe key a b || descLe key b a) = true := by
  simp only [descLe, Bool.or_eq_true, Bool.and_eq_true, decide_eq_true_eq]
  rcases lt_trichotomy (key a) (key b) with h | h | h
  · exact Or.inr (Or.inl h)
  · rcases Nat.le_total a b with hab | hab
    · exact Or.inl (Or.inr ⟨h, hab⟩)
    · exact Or.inr (Or.inr ⟨h.symm, hab⟩)
  · exact Or.inl (Or.inl h)

theorem descLe_antisymm (key : ℕ → ℚ) (a b : ℕ) (h1 : descLe key a b = true)
    (h2 : descLe key b a = true) : a = b := by
  simp only [descLe, Bool.or_eq_true, Bool.and_eq_true, decide_eq_true_eq] at *
  rcases h1 with h1 | ⟨e1, i1⟩ <;> rcases h2 with h2 | ⟨e2, i2⟩
  · exact absurd (lt_trans h1 h2) (lt_irrefl _)
  · exact absurd h1 (e2 ▸ lt_irrefl _)
  · exact absurd h2 (e1 ▸ lt_irrefl _)
  · exact le_antisymm i1 i2

theorem ascLe_eq_descLe_neg (key : ℕ → ℚ) :
    ascLe key = descLe (fun j => -(key j)) := by
  funext i j
  simp only [ascLe, descLe, neg_lt_neg_iff, neg_inj]

theorem indexOf_eq_countP_of_sorted (le : ℕ → ℕ → Bool)
    (hanti : ∀ a b, le a b = true → le b a = true → a = b)
    (l : List ℕ) (hnd : l.Nodup)
    (hs : List.Pairwise (fun a b => le a b = true) l)
    (j : ℕ) (hj : j ∈ l) :
    l.indexOf j = l.countP (fun i => le i j && !(i = j)) := by
  induction l with
  | nil => cases hj
  | cons a t ih =>
    rcases List.pairwise_cons.mp hs with ⟨hall, htail⟩
    rcases List.nodup_cons.mp hnd with ⟨hna, hnt⟩
    rcases List.mem_cons.mp hj with rfl | hjt
    · rw [List.indexOf_cons_self, List.countP_cons]
      have hpa : (le j j && !(j = j)) = false := by simp
      have hz : t.countP (fun i => le i j && !(i = j)) = 0 := by
        rw [List.countP_eq_zero]
        intro i hi
        simp only [Bool.and_eq_true, Bool.not_eq_eq_eq_not, Bool.not_true,
          decide_eq_false_iff_not, not_and]
        intro hle hne
        exact hne (hanti i j hle (hall i hi))
      rw [hz, hpa]
      simp
    · have hne : a ≠ j := fun h => hna (h ▸ hjt)
      rw [List.indexOf_cons_ne _ hne, List.countP_cons]
      have hpa : (le a j && !(a = j)) = true := by
        simp only [Bool.and_eq_true, Bool.not_eq_eq_eq_not, Bool.not_true,
          decide_eq_false_iff_not]
        exact ⟨hall j hjt, hne⟩
      rw [ih hnt htail hjt, hpa]
      simp [Nat.succ_eq_add_one]

theorem rankOf_range_perm (le : ℕ → ℕ → Bool) (n : ℕ) :
    ((List.range n).map (fun j => rankOf ((List.range n).mergeSort le) j)).Perm
      (List.range' 1 n) := by
  have hperm : ((List.range n).mergeSort le).Perm (List.range n) :=
    List.mergeSort_perm _ _
  have hnd : ((List.range n).mergeSort le).Nodup :=
    (hperm.nodup_iff).mpr (List.nodup_range n)
  set ord := (List.range n).mergeSort le with hord
  have hlen : ord.length = n := hperm.length_eq.trans (List.length_range n)
  have hmapil : ord.map (fun j => ord.indexOf j) = List.range n := by
    apply List.ext_get
    · simp [hlen]
    · intro i h1 h2
      simp only [List.get_map, List.get_range]
      exact List.get_indexOf hnd _
  have h2 : ((List.range n).map (fun j => ord.indexOf j)).Perm (List.range n) := by
    have h3 := (hperm.symm).map (fun j => ord.indexOf j)
    rw [hmapil] at h3
    exact h3
  have h4 : ((List.range n).map (fun j => rankOf ord j)) =
      ((List.range n).map (fun j => ord.indexOf j)).map (fun x => x + 1) := by
    simp [rankOf, List.map_map, Function.comp]
  rw [h4, List.range'_eq_map_range]
  have h5 := h2.map (fun x => x + 1)
  have h6 : (List.range n).map (fun x => x + 1) = (List.range n).map (fun x => 1 + x) :=
    List.map_congr_left (fun a _ => Nat.add_comm a 1)
  rw [h6] at h5
  exact h5

theorem rank_group_length (g : List PerformanceMetrics) :
    (rank_group g).length = g.length := by
  simp [rank_group]

theorem rank_group_getD (g : List PerformanceMetrics) {j : ℕ} (h : j < g.length) :
    (rank_group g).getD j default =
      { g.getD j default with
        accuracy_rank := rankOf (rg_accOrder g) j
        speed_rank := rankOf (rg_speedOrder g) j
        cost_rank := rankOf (rg_costOrder g) j
        overall_rank := (rankOf (rg_overallOrder g) j : ℚ) } := by
  rw [rank_group, getD_map_range _ h]

theorem rank_group_map_category (g : List PerformanceMetrics) :
    (rank_group g).map (fun m => m.category) = g.map (fun m => m.category) := by
  rw [rank_group, List.map_map]
  exact map_getD_range g (fun m => m.category) default

theorem rank_group_filter_cat (ms : List PerformanceMetrics) (c2 : List Char) :
    ∀ x ∈ rank_group (ms.filter (fun m => m.category = c2)), x.category = c2 := by
  intro x hx
  have h1 : x.category ∈ (rank_group (ms.filter (fun m => m.category = c2))).map
      (fun m => m.category) := List.mem_map_of_mem _ hx
  rw [rank_group_map_category] at h1
  rcases List.mem_map.mp h1 with ⟨a, ha, hcat⟩
  have h2 := (List.mem_filter.mp ha).2
  simp only [decide_eq_true_eq] at h2
  rw [← hcat, h2]

theorem flatMap_rank_group_filter (ms : List PerformanceMetrics) (c : List Char)
    (cats : List (List Char)) (hnd : cats.Nodup) :
    ((cats.flatMap (fun c2 => rank_group (ms.filter (fun m => m.category = c2)))).filter
        (fun m => m.category = c)) =
      if c ∈ cats then rank_group (ms.filter (fun m => m.category = c)) else [] := by
  induction cats with
  | nil => simp
  | cons c2 rest ih =>
    rcases List.nodup_cons.mp hnd with ⟨hc2, hrest⟩
    rw [List.flatMap_cons, List.filter_append, ih hrest]
    by_cases hcc : c2 = c
    · subst hcc
      have h1 : (rank_group (ms.filter (fun m => m.category = c2))).filter
          (fun m => m.category = c2) = rank_group (ms.filter (fun m => m.category = c2)) := by
        rw [List.filter_eq_self]
        intro a ha
        simp [rank_group_filter_cat ms c2 a ha]
      rw [h1]
      simp [hc2]
    · have h1 : (rank_group (ms.filter (fun m => m.category = c2))).filter
          (fun m => m.category = c) = [] := by
        rw [List.filter_eq_nil_iff]
        intro a ha
        simp [rank_group_filter_cat ms c2 a ha, hcc]
      rw [h1]
      simp [List.mem_cons, Ne.symm hcc, hcc]

theorem calculate_rankings_filter (ms : List PerformanceMetrics) (c : List Char) :
    (calculate_rankings ms).filter (fun m => m.category = c) =
      rank_group (ms.filter (fun m => m.category = c)) := by
  rw [calculate_rankings]
  rw [flatMap_rank_group_filter ms c _ (nodup_dedupFirst _)]
  by_cases hc : c ∈ dedupFirst (ms.map (fun m => m.category))
  · simp [hc]
  · simp only [hc, if_false]
    have h1 : ms.filter (fun m => m.category = c) = [] := by
      rw [List.filter_eq_nil_iff]
      intro a ha hcat
      simp only [decide_eq_true_eq] at hcat
      exact hc (mem_dedupFirst.mpr (hcat ▸ List.mem_map_of_mem _ ha))
    rw [h1]
    rfl

theorem rank_group_map_accuracy (g : List PerformanceMetrics) :
    (rank_group g).map (fun m => m.accuracy_rank) =
      (List.range g.length).map (fun j => rankOf (rg_accOrder g) j) := by
  rw [rank_group, List.map_map]
  rfl

theorem rank_group_map_speed (g : List PerformanceMetrics) :
    (rank_group g).map (fun m => m.speed_rank) =
      (List.range g.length).map (fun j => rankOf (rg_speedOrder g) j) := by
  rw [rank_group, List.map_map]
  rfl

theorem rank_group_map_cost (g : List PerformanceMetrics) :
    (rank_group g).map (fun m => m.cost_rank) =
      (List.range g.length).map (fun j => rankOf (rg_costOrder g) j) := by
  rw [rank_group, List.map_map]
  rfl

theorem rank_group_map_overall (g : List PerformanceMetrics) :
    (rank_group g).map (fun m => m.overall_rank) =
      (List.range g.length).map (fun j => ((rankOf (rg_overallOrder g) j : ℕ) : ℚ)) := by
  rw [rank_group, List.map_map]
  rfl

/-- Subroutine-level fact: on whatever list of metric rows the ranking pass
receives, within each category group of N rows each of accuracy_rank,
speed_rank, cost_rank and overall_rank takes every value of {1, ..., N}
exactly once. This characterizes _calculate_rankings (engine.py:280-326) in
isolation; the rows a run actually persists never pass through it, since its
query runs before they are flushed. -/
theorem calculate_rankings_fields_permutation (ms : List PerformanceMetrics) (c : List Char) :
    (((calculate_rankings ms).filter (fun m => m.category = c)).map
        (fun m => m.accuracy_rank)).Perm
      (List.range' 1 ((calculate_rankings ms).filter (fun m => m.category = c)).length) ∧
    (((calculate_rankings ms).filter (fun m => m.category = c)).map
        (fun m => m.speed_rank)).Perm
      (List.range' 1 ((calculate_rankings ms).filter (fun m => m.category = c)).length) ∧
    (((calculate_rankings ms).filter (fun m => m.category = c)).map
        (fun m => m.cost_rank)).Perm
      (List.range' 1 ((calculate_rankings ms).filter (fun m => m.category = c)).length) ∧
    (((calculate_rankings ms).filter (fun m => m.category = c)).map
        (fun m => m.overall_rank)).Perm
      ((List.range' 1 ((calculate_rankings ms).filter (fun m => m.category = c)).length).map
        (fun k : ℕ => (k : ℚ))) := by
  rw [calculate_rankings_filter, rank_group_length]
  set g0 := ms.filter (fun m => m.category = c) with hg0
  refine ⟨?_, ?_, ?_, ?_⟩
  · rw [rank_group_map_accuracy]
    exact rankOf_range_perm _ _
  · rw [rank_group_map_speed]
    exact rankOf_range_perm _ _
  · rw [rank_group_map_cost]
    exact rankOf_range_perm _ _
  · rw [rank_group_map_overall]
    have h := (rankOf_range_perm (descLe (rg_points g0)) g0.length).map (fun k : ℕ => (k : ℚ))
    rw [List.map_map] at h
    exact h

theorem rankOf_overallOrder_eq (g : List PerformanceMetrics) {j : ℕ} (hj : j < g.length) :
    rankOf (rg_overallOrder g) j =
      1 + (List.range g.length).countP (fun k =>
        decide (rg_points g j < rg_points g k ∨
          (rg_points g k = rg_points g j ∧ k < j))) := by
  have hperm : (rg_overallOrder g).Perm (List.range g.length) := List.mergeSort_perm _ _
  have hnd : (rg_overallOrder g).Nodup := hperm.nodup_iff.mpr (List.nodup_range _)
  have hsorted : List.Pairwise (fun a b => descLe (rg_points g) a b = true) (rg_overallOrder g) :=
    List.sorted_mergeSort (descLe_trans _) (descLe_total _) _
  have hjmem : j ∈ rg_overallOrder g := hperm.mem_iff.mpr (List.mem_range.mpr hj)
  have h1 := indexOf_eq_countP_of_sorted (descLe (rg_points g)) (descLe_antisymm _)
    (rg_overallOrder g) hnd hsorted j hjmem
  rw [rankOf, h1, hperm.countP_eq, Nat.add_comm]
  congr 1
  apply List.countP_congr
  intro k _
  simp only [Bool.and_eq_true, Bool.not_eq_eq_eq_not, Bool.not_true,
    decide_eq_false_iff_not, decide_eq_true_eq, descLe, Bool.or_eq_true]
  constructor
  · rintro ⟨h2 | ⟨he, hle⟩, hne⟩
    · exact Or.inl h2
    · exact Or.inr ⟨he, lt_of_le_of_ne hle hne⟩
  · rintro (h2 | ⟨he, hlt⟩)
    · refine ⟨Or.inl h2, ?_⟩
      intro h3
      exact absurd h2 (h3 ▸ lt_irrefl _)
    · exact ⟨Or.inr ⟨he, le_of_lt hlt⟩, Nat.ne_of_lt hlt⟩

theorem spec_points_rank_group (g : List PerformanceMetrics) {k : ℕ} (h : k < g.length) :
    spec_points g.length ((rank_group g).getD k default) = rg_points g k := by
  rw [rank_group_getD g h]
  rfl

/-- Subroutine-level fact: in a ranked category group of size N, the
overall_rank the ranking pass assigns to the row at position j is its
1-based position when the group is sorted by descending weighted points
(stable: ties keep the earlier row first), where points =
(N − accuracy_rank + 1)×0.5 + (N − speed_rank + 1)×0.25 +
(N − cost_rank + 1)×0.25 over the assigned rank fields; the assigned value
is that integer position, not the intermediate points value. This holds of
_calculate_rankings (engine.py:313-326) in isolation; a run's own metric
rows never pass through it. -/
theorem calculate_rankings_overall_position (ms : List PerformanceMetrics)
    (c : List Char) (j : ℕ) (hj : j < (cr_group ms c).length) :
    ((cr_group ms c).getD j default).overall_rank =
      (((1 + (List.range (cr_group ms c).length).countP (fun k =>
        decide (spec_points (cr_group ms c).length ((cr_group ms c).getD j default) <
            spec_points (cr_group ms c).length ((cr_group ms c).getD k default) ∨
          (spec_points (cr_group ms c).length ((cr_group ms c).getD k default) =
            spec_points (cr_group ms c).length ((cr_group ms c).getD j default) ∧
            k < j)))) : ℕ) : ℚ) := by
  have hg : cr_group ms c = rank_group (ms.filter (fun m => m.category = c)) := by
    rw [cr_group, calculate_rankings_filter]
  set g0 := ms.filter (fun m => m.category = c) with hg0
  rw [hg, rank_group_length] at hj ⊢
  have hcount : (List.range g0.length).countP (fun k =>
        decide (spec_points g0.length ((rank_group g0).getD j default) <
            spec_points g0.length ((rank_group g0).getD k default) ∨
          (spec_points g0.length ((rank_group g0).getD k default) =
            spec_points g0.length ((rank_group g0).getD j default) ∧ k < j))) =
      (List.range g0.length).countP (fun k =>
        decide (rg_points g0 j < rg_points g0 k ∨
          (rg_points g0 k = rg_points g0 j ∧ k < j))) := by
    apply List.countP_congr
    intro k hk
    rw [spec_points_rank_group g0 (List.mem_range.mp hk), spec_points_rank_group g0 hj]
  rw [hcount, rank_group_getD g0 hj]
  show ((rankOf (rg_overallOrder g0) j : ℕ) : ℚ) = _
  exact_mod_cast rankOf_overallOrder_eq g0 hj

theorem generate_completion_facts (pt : ProviderType) (cfg : ProviderConfig)
    (prompt : List Char) (env : CallEnv) :
    (pyFalsy (generate_completion pt cfg prompt env).error =
      decide ((generate_completion pt cfg prompt env).error = none)) ∧
    ((generate_completion pt cfg prompt env).error = none →
      (generate_completion pt cfg prompt env).cost_usd =
        ((generate_completion pt cfg prompt env).tokens_used : ℚ) / 1000 *
          cfg.cost_per_1k_tokens) ∧
    ((generate_completion pt cfg prompt env).error ≠ none →
      (generate_completion pt cfg prompt env).tokens_used = 0 ∧
      (generate_completion pt cfg prompt env).cost_usd = 0) := by
  cases pt with
  | mock =>
    refine ⟨rfl, fun _ => rfl, fun h => absurd rfl h⟩
  | openai =>
    simp only [generate_completion, openai_generate]
    cases henv : env.realKey with
    | false =>
      refine ⟨rfl, fun _ => rfl, fun h => absurd rfl h⟩
    | true =>
      cases hapi : env.api with
      | ok content tokens =>
        refine ⟨rfl, fun _ => rfl, fun h => absurd rfl h⟩
      | exn msg =>
        refine ⟨rfl, fun h => ?_, fun _ => ⟨rfl, rfl⟩⟩
        exact absurd h (by simp [create_response])
  | anthropic =>
    simp only [generate_completion, anthropic_generate]
    cases henv : env.realKey with
    | false =>
      refine ⟨rfl, fun _ => rfl, fun h => absurd rfl h⟩
    | true =>
      cases hapi : env.api with
      | ok content tokens =>
        refine ⟨rfl, fun _ => rfl, fun h => absurd rfl h⟩
      | exn msg =>
        refine ⟨rfl, fun h => ?_, fun _ => ⟨rfl, rfl⟩⟩
        exact absurd h (by simp [create_response])

theorem create_provider_error_ne (p : Option (List Char)) (e : List Char)
    (h : create_provider p = Except.error e) : e.isEmpty = false := by
  rw [create_provider] at h
  split_ifs at h
  all_goals simp only [Except.error.injEq] at h
  subst h
  rfl

theorem evaluator_score_error_ne (text e : List Char)
    (h : evaluator_score text = Except.error e) : e.isEmpty = false := by
  rw [evaluator_score] at h
  cases hx : extract_score text with
  | some q => rw [hx] at h; simp at h
  | none =>
    rw [hx] at h
    simp only [Except.error.injEq] at h
    subst h
    rfl

theorem summarization_mock_error_ne (i r e : List Char)
    (h : summarization_mock_evaluation i r = Except.error e) : e.isEmpty = false := by
  simp only [summarization_mock_evaluation] at h
  split at h
  · simp only [Except.error.injEq] at h
    subst h
    rfl
  · split at h
    · simp only [Except.error.injEq] at h
      subst h
      rfl
    · simp at h

theorem qa_mock_error_ne (x : Option (List Char)) (r e : List Char)
    (h : qa_mock_evaluation x r = Except.error e) : e.isEmpty = false := by
  cases x with
  | none =>
    simp only [qa_mock_evaluation] at h
    simp only [Except.error.injEq] at h
    subst h
    rfl
  | some v =>
    simp only [qa_mock_evaluation] at h
    split at h
    · split at h
      · simp only [Except.error.injEq] at h
        subst h
        rfl
      · simp at h
    · simp at h

theorem summarization_evaluate_error_ne (tc : TestCase) (c e : List Char)
    (h : summarization_evaluate tc c = Except.error e) : e.isEmpty = false := by
  rw [summarization_evaluate] at h
  cases hm : summarization_mock_evaluation tc.input_text c with
  | error e2 =>
    rw [hm] at h
    simp only [Bind.bind, Except.bind, Except.error.injEq] at h
    subst h
    exact summarization_mock_error_ne _ _ _ hm
  | ok text =>
    rw [hm] at h
    simp only [Bind.bind, Except.bind] at h
    exact evaluator_score_error_ne _ _ h

theorem qa_evaluate_error_ne (tc : TestCase) (c e : List Char)
    (h : qa_evaluate tc c = Except.error e) : e.isEmpty = false := by
  rw [qa_evaluate] at h
  cases hm : qa_mock_evaluation tc.expected_output c with
  | error e2 =>
    rw [hm] at h
    simp only [Bind.bind, Except.bind, Except.error.injEq] at h
    subst h
    exact qa_mock_error_ne _ _ _ hm
  | ok text =>
    rw [hm] at h
    simp only [Bind.bind, Except.bind] at h
    exact evaluator_score_error_ne _ _ h

theorem reasoning_evaluate_error_ne (tc : TestCase) (c e : List Char)
    (h : reasoning_evaluate tc c = Except.error e) : e.isEmpty = false :=
  evaluator_score_error_ne _ _ h

theorem evaluator_dispatch_error_ne (tc : TestCase) (c e : List Char)
    (h : evaluator_dispatch tc c = Except.error e) : e.isEmpty = false := by
  rw [evaluator_dispatch] at h
  split_ifs at h
  · exact summarization_evaluate_error_ne _ _ _ h
  · exact qa_evaluate_error_ne _ _ _ h
  · exact reasoning_evaluate_error_ne _ _ _ h
  · simp only [Except.error.injEq] at h
    subst h
    rfl

theorem evaluate_single_case_error_ne (env : LLMModel → TestCase → CallEnv) (rid : ℕ)
    (m : LLMModel) (tc : TestCase) (e : List Char)
    (h : evaluate_single_case env rid m tc = Except.error e) : e.isEmpty = false := by
  rw [evaluate_single_case] at h
  cases hcp : create_provider (model_config m).provider with
  | error e2 =>
    rw [hcp] at h
    simp only [Bind.bind, Except.bind, Except.error.injEq] at h
    subst h
    exact create_provider_error_ne _ _ hcp
  | ok pt =>
    rw [hcp] at h
    simp only [Bind.bind, Except.bind] at h
    cases hev : evaluator_dispatch tc
        (generate_completion pt (model_config m) tc.input_text (env m tc)).content with
    | error e2 =>
      rw [hev] at h
      simp only [Except.error.injEq] at h
      subst h
      exact evaluator_dispatch_error_ne _ _ _ hev
    | ok ev =>
      rw [hev] at h
      simp at h

theorem evaluate_single_case_ok_facts (env : LLMModel → TestCase → CallEnv) (rid : ℕ)
    (m : LLMModel) (tc : TestCase) (r : EvaluationResult)
    (h : evaluate_single_case env rid m tc = Except.ok r) :
    r.evaluation_run_id = rid ∧ r.model_id = m.id ∧ r.test_case_id = tc.id ∧
    pyFalsy r.error_message = decide (r.error_message = none) ∧
    (r.error_message = none →
      r.cost_usd = (r.tokens_used : ℚ) / 1000 * m.cost_per_1k_tokens) ∧
    (r.error_message ≠ none → r.tokens_used = 0 ∧ r.cost_usd = 0) := by
  rw [evaluate_single_case] at h
  cases hcp : create_provider (model_config m).provider with
  | error e => rw [hcp] at h; simp [Bind.bind, Except.bind] at h
  | ok pt =>
    rw [hcp] at h
    simp only [Bind.bind, Except.bind] at h
    cases hev : evaluator_dispatch tc
        (generate_completion pt (model_config m) tc.input_text (env m tc)).content with
    | error e => rw [hev] at h; simp at h
    | ok ev =>
      rw [hev] at h
      simp only [Except.ok.injEq] at h
      subst h
      rcases generate_completion_facts pt (model_config m) tc.input_text (env m tc) with
        ⟨hf, hc, hz⟩
      exact ⟨rfl, rfl, rfl, hf, hc, hz⟩

theorem run_pairs_mem_facts (env : LLMModel → TestCase → CallEnv) (rid : ℕ)
    (models : List LLMModel) (tcs : List TestCase) (r : EvaluationResult)
    (h : r ∈ run_pairs env rid models tcs) :
    pyFalsy r.error_message = decide (r.error_message = none) ∧
    r.evaluation_run_id = rid := by
  rw [run_pairs] at h
  rcases List.mem_flatMap.mp h with ⟨m, _, hr⟩
  rcases List.mem_map.mp hr with ⟨tc, _, hrt⟩
  cases hat : evaluate_single_case env rid m tc with
  | ok rr =>
    rw [hat] at hrt
    subst hrt
    rcases evaluate_single_case_ok_facts env rid m tc rr hat with ⟨h1, _, _, h4, _, _⟩
    exact ⟨h4, h1⟩
  | error e =>
    rw [hat] at hrt
    subst hrt
    have he := evaluate_single_case_error_ne env rid m tc e hat
    refine ⟨?_, rfl⟩
    simp [error_result, pyFalsy, he]

theorem group_rows_succ_null (env : LLMModel → TestCase → CallEnv) (rid : ℕ)
    (models : List LLMModel) (tcs : List TestCase) (tcat : ℕ → List Char)
    (key : ℕ × List Char) :
    (group_rows tcat (run_pairs env rid models tcs) key).filter is_success =
      (group_rows tcat (run_pairs env rid models tcs) key).filter
        (fun r => r.error_message = none) := by
  apply List.filter_congr
  intro r hr
  have hmem : r ∈ run_pairs env rid models tcs := (List.mem_filter.mp hr).1
  exact (run_pairs_mem_facts env rid models tcs r hmem).1

/-- C5: in every aggregation group of a run, an EvaluationResult with
non-null error_message increments total_count but contributes nothing to
avg_accuracy, avg_response_time, total_cost or total_tokens, and is excluded
from the success_rate numerator; success_rate equals success_count divided by
total_count. First conjunct: on the rows a run persists, the aggregation
(whose success test is Python truthiness) coincides with the spec's null
test, so averages are over rows with error_message = none only and
success_rate = success_count / total_count. Second conjunct: adding one
failed-attempt row to a group changes only the group's total count (and
thereby the success-rate denominator). -/
theorem C5_failed_attempt_counts_only_in_total :
    (∀ (env : LLMModel → TestCase → CallEnv) (rid : ℕ) (models : List LLMModel)
        (tcs : List TestCase) (tcat : ℕ → List Char) (key : ℕ × List Char),
      stats_metric rid tcat (run_pairs env rid models tcs) key =
        stats_metric_null rid tcat (run_pairs env rid models tcs) key) ∧
    (∀ (rid : ℕ) (tcat : ℕ → List Char) (results : List EvaluationResult)
        (e : EvaluationResult), pyFalsy e.error_message = false →
      (stats_metric rid tcat (results ++ [e]) (e.model_id, tcat e.test_case_id)).avg_accuracy =
        (stats_metric rid tcat results (e.model_id, tcat e.test_case_id)).avg_accuracy ∧
      (stats_metric rid tcat (results ++ [e]) (e.model_id, tcat e.test_case_id)).avg_response_time =
        (stats_metric rid tcat results (e.model_id, tcat e.test_case_id)).avg_response_time ∧
      (stats_metric rid tcat (results ++ [e]) (e.model_id, tcat e.test_case_id)).total_cost =
        (stats_metric rid tcat results (e.model_id, tcat e.test_case_id)).total_cost ∧
      (stats_metric rid tcat (results ++ [e]) (e.model_id, tcat e.test_case_id)).total_tokens =
        (stats_metric rid tcat results (e.model_id, tcat e.test_case_id)).total_tokens ∧
      (group_rows tcat (results ++ [e]) (e.model_id, tcat e.test_case_id)).length =
        (group_rows tcat results (e.model_id, tcat e.test_case_id)).length + 1 ∧
      ((group_rows tcat (results ++ [e]) (e.model_id, tcat e.test_case_id)).filter
          is_success).length =
        ((group_rows tcat results (e.model_id, tcat e.test_case_id)).filter
          is_success).length ∧
      (stats_metric rid tcat (results ++ [e]) (e.model_id, tcat e.test_case_id)).success_rate =
        (((group_rows tcat results (e.model_id, tcat e.test_case_id)).filter
            is_success).length : ℚ) /
          (((group_rows tcat results (e.model_id, tcat e.test_case_id)).length : ℚ) + 1)) := by
  constructor
  · intro env rid models tcs tcat key
    simp only [stats_metric, stats_metric_null]
    rw [group_rows_succ_null env rid models tcs tcat key]
  · intro rid tcat results e hfe
    have hrows : group_rows tcat (results ++ [e]) (e.model_id, tcat e.test_case_id) =
        group_rows tcat results (e.model_id, tcat e.test_case_id) ++ [e] := by
      simp [group_rows, List.filter_append]
    have hS : (group_rows tcat (results ++ [e]) (e.model_id, tcat e.test_case_id)).filter
        is_success =
        (group_rows tcat results (e.model_id, tcat e.test_case_id)).filter is_success := by
      rw [hrows, List.filter_append]
      have : [e].filter is_success = [] := by
        simp [is_success, hfe]
      rw [this, List.append_nil]
    refine ⟨?_, ?_, ?_, ?_, ?_, ?_, ?_⟩
    · simp only [stats_metric]
      rw [hS]
    · simp only [stats_metric]
      rw [hS]
    · simp only [stats_metric]
      rw [hS]
    · simp only [stats_metric]
      rw [hS]
    · rw [hrows, List.length_append]
      rfl
    · rw [hS]
    · simp only [stats_metric]
      rw [hS, hrows, List.length_append]
      push_cast
      rfl

theorem overall_block_mem {rid : ℕ} {results : List EvaluationResult} {m2 : LLMModel}
    {x : PerformanceMetrics}
    (hx : x ∈ (if (results.filter (fun r => r.model_id = m2.id)).isEmpty
      then ([] : List PerformanceMetrics) else [overall_metric rid results m2])) :
    x = overall_metric rid results m2 := by
  split at hx
  · cases hx
  · simpa using hx

theorem model_rows_succ_null (env : LLMModel → TestCase → CallEnv) (rid : ℕ)
    (models : List LLMModel) (tcs : List TestCase) (mid : ℕ) :
    ((run_pairs env rid models tcs).filter (fun r => r.model_id = mid)).filter is_success =
      ((run_pairs env rid models tcs).filter (fun r => r.model_id = mid)).filter
        (fun r => r.error_message = none) := by
  apply List.filter_congr
  intro r hr
  exact (run_pairs_mem_facts env rid models tcs r (List.mem_filter.mp hr).1).1

theorem overall_filter_single (rid : ℕ) (results : List EvaluationResult)
    (mlist : List LLMModel) (m : LLMModel) (hm : m ∈ mlist)
    (hnd : (mlist.map (fun x => x.id)).Nodup)
    (hne : results.filter (fun r => r.model_id = m.id) ≠ []) :
    ((mlist.flatMap (fun m3 => if (results.filter (fun r => r.model_id = m3.id)).isEmpty
        then ([] : List PerformanceMetrics) else [overall_metric rid results m3])).filter
      (fun y => y.category = ("overall").toList && y.model_id = m.id)) =
      [overall_metric rid results m] := by
  induction mlist with
  | nil => cases hm
  | cons m2 rest ih =>
    rw [List.map_cons, List.nodup_cons] at hnd
    rcases hnd with ⟨hm2id, hndrest⟩
    rw [List.flatMap_cons, List.filter_append]
    rcases List.mem_cons.mp hm with rfl | hmr
    · have hb : (if (results.filter (fun r => r.model_id = m.id)).isEmpty
          then ([] : List PerformanceMetrics) else [overall_metric rid results m]) =
          [overall_metric rid results m] := by
        rw [if_neg]
        rw [List.isEmpty_iff]
        exact hne
      rw [hb]
      have hp : ([overall_metric rid results m]).filter
          (fun y => y.category = ("overall").toList && y.model_id = m.id) =
          [overall_metric rid results m] := by
        simp [overall_metric]
      rw [hp]
      have hrest : ((rest.flatMap (fun m3 =>
          if (results.filter (fun r => r.model_id = m3.id)).isEmpty
          then ([] : List PerformanceMetrics) else [overall_metric rid results m3])).filter
          (fun y => y.category = ("overall").toList && y.model_id = m.id)) = [] := by
        rw [List.filter_eq_nil_iff]
        intro x hx
        rcases List.mem_flatMap.mp hx with ⟨m3, hm3, hxb⟩
        rw [overall_block_mem hxb]
        have hid : m3.id ≠ m.id := by
          intro hh
          exact hm2id (hh ▸ List.mem_map_of_mem (fun x => x.id) hm3)
        simp [overall_metric, hid]
      rw [hrest, List.append_nil]
    · have hid : m2.id ≠ m.id := by
        intro hh
        exact hm2id (hh ▸ List.mem_map_of_mem (fun x => x.id) hmr)
      have hb : ((if (results.filter (fun r => r.model_id = m2.id)).isEmpty
          then ([] : List PerformanceMetrics) else [overall_metric rid results m2]).filter
          (fun y => y.category = ("overall").toList && y.model_id = m.id)) = [] := by
        split
        · rfl
        · simp [overall_metric, hid]
      rw [hb, List.nil_append]
      exact ih hmr hndrest

/-- Subroutine-level fact: had the aggregation been fed the full pair-row
set of a run, it would produce exactly one "overall" PerformanceMetrics row
per model with results, computed as a fresh mean over every successful
result across all categories. The program's aggregation query never returns
that full set when a trailing pair raised, since those error rows are still
pending at query time. -/
theorem gen_metrics_overall_row_fresh_mean (env : LLMModel → TestCase → CallEnv) (rid : ℕ)
    (models : List LLMModel) (tcs : List TestCase) (tcat : ℕ → List Char) (m : LLMModel)
    (hm : m ∈ models)
    (hnd : (models.map (fun x => x.id)).Nodup)
    (hcat : ∀ r ∈ run_pairs env rid models tcs, tcat r.test_case_id ≠ ("overall").toList)
    (hne : model_rows (run_pairs env rid models tcs) m.id ≠ []) :
    (generate_performance_metrics rid tcat (run_pairs env rid models tcs) models).filter
        (fun y => y.category = ("overall").toList && y.model_id = m.id) =
      [overall_metric rid (run_pairs env rid models tcs) m] ∧
    (overall_metric rid (run_pairs env rid models tcs) m).avg_accuracy =
      ((model_success_rows (run_pairs env rid models tcs) m.id).map
          (fun r => r.accuracy_score)).sum /
        ((model_success_rows (run_pairs env rid models tcs) m.id).length : ℚ) ∧
    (overall_metric rid (run_pairs env rid models tcs) m).avg_response_time =
      ((model_success_rows (run_pairs env rid models tcs) m.id).map
          (fun r => r.response_time_ms)).sum /
        ((model_success_rows (run_pairs env rid models tcs) m.id).length : ℚ) ∧
    (overall_metric rid (run_pairs env rid models tcs) m).total_cost =
      ((model_success_rows (run_pairs env rid models tcs) m.id).map
        (fun r => r.cost_usd)).sum ∧
    (overall_metric rid (run_pairs env rid models tcs) m).total_tokens =
      ((model_success_rows (run_pairs env rid models tcs) m.id).map
        (fun r => r.tokens_used)).sum ∧
    (overall_metric rid (run_pairs env rid models tcs) m).success_rate =
      ((model_success_rows (run_pairs env rid models tcs) m.id).length : ℚ) /
        ((model_rows (run_pairs env rid models tcs) m.id).length : ℚ) := by
  set results := run_pairs env rid models tcs with hresults
  have hsc : (results.filter (fun r => r.model_id = m.id)).filter is_success =
      (results.filter (fun r => r.model_id = m.id)).filter
        (fun r => r.error_message = none) :=
    model_rows_succ_null env rid models tcs m.id
  constructor
  · rw [generate_performance_metrics, List.filter_append]
    have hpc : ((dedupFirst (results.map (fun r => (r.model_id, tcat r.test_case_id)))).map
        (stats_metric rid tcat results)).filter
        (fun y => y.category = ("overall").toList && y.model_id = m.id) = [] := by
      rw [List.filter_eq_nil_iff]
      intro a ha
      rcases List.mem_map.mp ha with ⟨key, hkey, rfl⟩
      rcases List.mem_map.mp (mem_dedupFirst.mp hkey) with ⟨r, hr, rfl⟩
      simp only [stats_metric, Bool.and_eq_true, decide_eq_true_eq, not_and]
      intro h
      exact absurd h (hcat r hr)
    rw [hpc, List.nil_append]
    exact overall_filter_single rid results models m hm hnd hne
  · refine ⟨?_, ?_, ?_, ?_, ?_⟩
    · simp only [overall_metric, model_success_rows, model_rows]
      rw [hsc]
      split
      · rename_i hempty
        rw [List.isEmpty_iff] at hempty
        rw [hempty]
        simp
      · rfl
    · simp only [overall_metric, model_success_rows, model_rows]
      rw [hsc]
      split
      · rename_i hempty
        rw [List.isEmpty_iff] at hempty
        rw [hempty]
        simp
      · rfl
    · simp only [overall_metric, model_success_rows, model_rows]
      rw [hsc]
      split
      · rename_i hempty
        rw [List.isEmpty_iff] at hempty
        rw [hempty]
        simp
      · rfl
    · simp only [overall_metric, model_success_rows, model_rows]
      rw [hsc]
      split
      · rename_i hempty
        rw [List.isEmpty_iff] at hempty
        rw [hempty]
        simp
      · rfl
    · simp only [overall_metric, model_success_rows, model_rows]
      rw [hsc]

theorem run_pairs_eq (env : LLMModel → TestCase → CallEnv) (rid : ℕ)
    (models : List LLMModel) (tcs : List TestCase) :
    run_pairs env rid models tcs =
      models.flatMap (fun m => tcs.map (pair_row env rid m)) := rfl

theorem pair_row_ids (env : LLMModel → TestCase → CallEnv) (rid : ℕ) (m : LLMModel)
    (tc : TestCase) :
    (pair_row env rid m tc).evaluation_run_id = rid ∧
    (pair_row env rid m tc).model_id = m.id ∧
    (pair_row env rid m tc).test_case_id = tc.id := by
  rw [pair_row]
  cases hat : evaluate_single_case env rid m tc with
  | ok r =>
    rcases evaluate_single_case_ok_facts env rid m tc r hat with ⟨h1, h2, h3, _⟩
    exact ⟨h1, h2, h3⟩
  | error e => exact ⟨rfl, rfl, rfl⟩

theorem filter_map_single {α β : Type} (l : List α) (f : α → β) (p : β → Bool) (a : α)
    (ha : a ∈ l) (key : α → ℕ) (hnd : (l.map key).Nodup)
    (hsel : ∀ x ∈ l, p (f x) = decide (key x = key a)) :
    (l.map f).filter p = [f a] := by
  induction l with
  | nil => cases ha
  | cons x t ih =>
    rw [List.map_cons, List.nodup_cons] at hnd
    rcases hnd with ⟨hxk, hndt⟩
    rw [List.map_cons, List.filter_cons]
    by_cases hk : key x = key a
    · have hax : a = x := by
        rcases List.mem_cons.mp ha with rfl | hat
        · rfl
        · exact absurd (hk ▸ List.mem_map_of_mem key hat) hxk
      subst hax
      rw [hsel a (List.mem_cons_self a t)]
      have ht : (t.map f).filter p = [] := by
        rw [List.filter_eq_nil_iff]
        intro y hy
        rcases List.mem_map.mp hy with ⟨b, hb, rfl⟩
        rw [hsel b (List.mem_cons_of_mem _ hb)]
        simp only [decide_eq_true_eq]
        intro hkb
        exact hxk (hk ▸ hkb ▸ List.mem_map_of_mem key hb)
      rw [ht]
      simp [hk]
    · have hat : a ∈ t := by
        rcases List.mem_cons.mp ha with rfl | hat
        · exact absurd rfl hk
        · exact hat
      rw [hsel x (List.mem_cons_self x t)]
      rw [if_neg (by simp [hk])]
      exact ih hat hndt (fun y hy => hsel y (List.mem_cons_of_mem _ hy))

theorem filter_flatMap_single {α β : Type} (l : List α) (f : α → List β) (p : β → Bool)
    (a : α) (ha : a ∈ l) (key : α → ℕ) (hnd : (l.map key).Nodup)
    (hother : ∀ x ∈ l, key x ≠ key a → (f x).filter p = []) :
    (l.flatMap f).filter p = (f a).filter p := by
  induction l with
  | nil => cases ha
  | cons x t ih =>
    rw [List.map_cons, List.nodup_cons] at hnd
    rcases hnd with ⟨hxk, hndt⟩
    rw [List.flatMap_cons, List.filter_append]
    by_cases hk : key x = key a
    · have hax : a = x := by
        rcases List.mem_cons.mp ha with rfl | hat
        · rfl
        · exact absurd (hk ▸ List.mem_map_of_mem key hat) hxk
      subst hax
      have ht : (t.flatMap f).filter p = [] := by
        rw [List.filter_eq_nil_iff]
        intro y hy
        rcases List.mem_flatMap.mp hy with ⟨b, hb, hyb⟩
        have hkb : key b ≠ key a := by
          intro hh
          exact hxk (hh ▸ List.mem_map_of_mem key hb)
        have := hother b (List.mem_cons_of_mem _ hb) hkb
        rw [List.filter_eq_nil_iff] at this
        exact this y hyb
      rw [ht, List.append_nil]
    · have hat : a ∈ t := by
        rcases List.mem_cons.mp ha with rfl | hat
        · exact absurd rfl hk
        · exact hat
      rw [hother x (List.mem_cons_self x t) hk, List.nil_append]
      exact ih hat hndt (fun y hy => hother y (List.mem_cons_of_mem _ hy))

theorem run_pairs_filter_pair (env : LLMModel → TestCase → CallEnv) (rid : ℕ)
    (models : List LLMModel) (tcs : List TestCase) (m : LLMModel) (tc : TestCase)
    (hm : m ∈ models) (htc : tc ∈ tcs)
    (hndm : (models.map (fun x => x.id)).Nodup)
    (hndt : (tcs.map (fun x => x.id)).Nodup) :
    (run_pairs env rid models tcs).filter
      (fun r => r.evaluation_run_id = rid && r.model_id = m.id &&
        r.test_case_id = tc.id) = [pair_row env rid m tc] := by
  rw [run_pairs_eq]
  have hrow : ∀ m2 tc2, (pair_row env rid m2 tc2).evaluation_run_id = rid ∧
      (pair_row env rid m2 tc2).model_id = m2.id ∧
      (pair_row env rid m2 tc2).test_case_id = tc2.id := fun m2 tc2 => pair_row_ids env rid m2 tc2
  rw [filter_flatMap_single models (fun m2 => tcs.map (pair_row env rid m2)) _ m hm
    (fun x => x.id) hndm ?hother]
  case hother =>
    intro m2 _ hkm
    rw [List.filter_eq_nil_iff]
    intro y hy
    rcases List.mem_map.mp hy with ⟨tc2, _, rfl⟩
    rcases hrow m2 tc2 with ⟨h1, h2, h3⟩
    simp [h1, h2, h3, hkm]
  apply filter_map_single tcs (pair_row env rid m) _ tc htc (fun x => x.id) hndt
  intro tc2 _
  rcases hrow m tc2 with ⟨h1, h2, h3⟩
  simp [h1, h2, h3]

theorem run_evaluation_completed (env : LLMModel → TestCase → CallEnv) (db : DB)
    (name : List Char) (mids : List ℕ) (tids : Option (List ℕ))
    (cats : Option (List (List Char)))
    (hm : resolve_models db mids ≠ []) (ht : resolve_test_cases db tids cats ≠ []) :
    (run_evaluation env db name mids tids cats).1.results =
      db.results ++ run_pairs env (next_run_id db) (resolve_models db mids)
        (resolve_test_cases db tids cats) ∧
    (run_evaluation env db name mids tids cats).2 = Except.ok
      { evaluation_id := next_run_id db
        status := ("completed").toList
        total_results := (run_pairs env (next_run_id db) (resolve_models db mids)
          (resolve_test_cases db tids cats)).length
        models_evaluated := (resolve_models db mids).length
        test_cases_run := (resolve_test_cases db tids cats).length } := by
  have h1 : ¬((resolve_models db mids).isEmpty = true) := by
    rw [List.isEmpty_iff]
    exact hm
  have h2 : ¬((resolve_test_cases db tids cats).isEmpty = true) := by
    rw [List.isEmpty_iff]
    exact ht
  simp only [run_evaluation]
  rw [if_neg h1, if_neg h2]
  exact ⟨rfl, rfl⟩

/-- C1 (amended): for every (model, test case) pair of a run whose attempt
raises an exception (unknown provider type, missing scorer for the category,
or any other raised exception), the run persists exactly one EvaluationResult
for that pair — the zeroed row with error_message set — and pairs whose
attempt returns normally persist exactly one row as well; a provider error
captured inside generate_completion leaves that single row with
error_message set, tokens_used 0 and cost_usd 0 (but an evaluator-derived
score and measured latency). No failure aborts the run: it still returns a
completed summary. -/
theorem C1_amended_pair_isolation (env : LLMModel → TestCase → CallEnv) (db : DB)
    (name : List Char) (mids : List ℕ) (tids : Option (List ℕ))
    (cats : Option (List (List Char))) (m : LLMModel) (tc : TestCase)
    (hm : m ∈ resolve_models db mids)
    (htc : tc ∈ resolve_test_cases db tids cats)
    (hndm : ((resolve_models db mids).map (fun x => x.id)).Nodup)
    (hndt : ((resolve_test_cases db tids cats).map (fun x => x.id)).Nodup)
    (hold : ∀ r ∈ db.results, r.evaluation_run_id ≠ next_run_id db) :
    (∃ s, (run_evaluation env db name mids tids cats).2 = Except.ok s) ∧
    (∀ e, evaluate_single_case env (next_run_id db) m tc = Except.error e →
      (run_evaluation env db name mids tids cats).1.results.filter
        (fun r => r.evaluation_run_id = next_run_id db && r.model_id = m.id &&
          r.test_case_id = tc.id) = [error_result (next_run_id db) m tc e]) ∧
    (∀ r, evaluate_single_case env (next_run_id db) m tc = Except.ok r →
      (run_evaluation env db name mids tids cats).1.results.filter
        (fun r2 => r2.evaluation_run_id = next_run_id db && r2.model_id = m.id &&
          r2.test_case_id = tc.id) = [r] ∧
      (r.error_message ≠ none → r.tokens_used = 0 ∧ r.cost_usd = 0)) := by
  have hmne : resolve_models db mids ≠ [] := fun h => by rw [h] at hm; cases hm
  have htne : resolve_test_cases db tids cats ≠ [] := fun h => by rw [h] at htc; cases htc
  rcases run_evaluation_completed env db name mids tids cats hmne htne with ⟨hres, hok⟩
  have hfilter : (run_evaluation env db name mids tids cats).1.results.filter
      (fun r => r.evaluation_run_id = next_run_id db && r.model_id = m.id &&
        r.test_case_id = tc.id) = [pair_row env (next_run_id db) m tc] := by
    rw [hres, List.filter_append]
    have hdb : db.results.filter (fun r => r.evaluation_run_id = next_run_id db &&
        r.model_id = m.id && r.test_case_id = tc.id) = [] := by
      rw [List.filter_eq_nil_iff]
      intro r hr
      simp only [Bool.and_eq_true, decide_eq_true_eq, not_and]
      intro h1
      exact absurd h1.1 (hold r hr)
    rw [hdb, List.nil_append]
    exact run_pairs_filter_pair env (next_run_id db) _ _ m tc hm htc hndm hndt
  refine ⟨⟨_, hok⟩, ?_, ?_⟩
  · intro e he
    rw [hfilter, pair_row, he]
  · intro r hr
    have hone : (run_evaluation env db name mids tids cats).1.results.filter
        (fun r2 => r2.evaluation_run_id = next_run_id db && r2.model_id = m.id &&
          r2.test_case_id = tc.id) = [r] := by
      rw [hfilter, pair_row, hr]
    rcases evaluate_single_case_ok_facts env (next_run_id db) m tc r hr with
      ⟨_, _, _, _, _, hz⟩
    exact ⟨hone, hz⟩

/-- C1 counterexample: in a run whose single pair hits a provider error (the
OpenAI call raises and the provider catches it), the persisted row has
error_message set but accuracy_score 1/2 (the evaluator's score of the empty
output) and response_time_ms 100 (the measured latency) — not the zeros the
claim requires for every failed pair. -/
theorem C1_counterexample :
    ((run_evaluation envC1 dbC1 (("n").toList) [1] none none).1.results.map
      (fun r => (r.error_message, r.accuracy_score, r.response_time_ms))) =
      [(some (("OpenAI API error: boom").toList), (1 / 2 : ℚ), (100 : ℚ))] ∧
    ¬((1 / 2 : ℚ) = 0) ∧ ¬((100 : ℚ) = 0) := by
  refine ⟨by with_unfolding_all decide, by norm_num, by norm_num⟩

theorem C1_amended_pair_isolation_witness :
    ∃ s, (run_evaluation envC1 dbC1 (("n").toList) [1] none none).2 = Except.ok s :=
  (C1_amended_pair_isolation envC1 dbC1 (("n").toList) [1] none none mC1 tC1
    (by with_unfolding_all decide) (by with_unfolding_all decide)
    (by with_unfolding_all decide) (by with_unfolding_all decide)
    (by with_unfolding_all decide)).1

/-- C2 (amended): a run_evaluation call whose requested model ids resolve to
no active models fails with the input-validation error, but only after the
EvaluationRun row has been created and committed: the orphan run row persists
with status "failed", while no result or metric rows are created. -/
theorem C2_amended_orphan_failed_run (env : LLMModel → TestCase → CallEnv) (db : DB)
    (name : List Char) (mids : List ℕ) (tids : Option (List ℕ))
    (cats : Option (List (List Char)))
    (hm : resolve_models db mids = []) :
    (run_evaluation env db name mids tids cats).2 =
      Except.error (("No active models found for evaluation").toList) ∧
    (run_evaluation env db name mids tids cats).1.runs = db.runs ++
      [{ id := next_run_id db
         name := name
         description := ("Evaluation of ").toList ++ natStr mids.length ++ (" models").toList
         status := ("failed").toList }] ∧
    (run_evaluation env db name mids tids cats).1.results = db.results ∧
    (run_evaluation env db name mids tids cats).1.metrics = db.metrics := by
  have h1 : (resolve_models db mids).isEmpty = true := by
    rw [List.isEmpty_iff]
    exact hm
  simp only [run_evaluation]
  rw [if_pos h1]
  refine ⟨rfl, ?_, rfl, rfl⟩
  simp only [set_run_status]
  rw [List.map_append]
  have hmap : db.runs.map (fun r => if r.id = next_run_id db
      then { r with status := ("failed").toList } else r) = db.runs := by
    conv_rhs => rw [← List.map_id db.runs]
    apply List.map_congr_left
    intro r hr
    rw [if_neg (next_run_id_not_mem db r hr)]
    rfl
  rw [hmap]
  simp

/-- C2 counterexample: requesting an evaluation against a database with no
models does fail with the validation error, but an EvaluationRun row has
already been persisted (status "failed") — the claim's "no orphan run row"
is violated. -/
theorem C2_counterexample :
    (run_evaluation env0 dbEmpty (("e").toList) [] none none).2 =
      Except.error (("No active models found for evaluation").toList) ∧
    (run_evaluation env0 dbEmpty (("e").toList) [] none none).1.runs.length = 1 ∧
    ((run_evaluation env0 dbEmpty (("e").toList) [] none none).1.runs.getD 0
      default).status = ("failed").toList := by
  refine ⟨by with_unfolding_all decide, by with_unfolding_all decide,
    by with_unfolding_all decide⟩

theorem C2_amended_orphan_failed_run_witness :
    (run_evaluation env0 dbEmpty (("e").toList) [] none none).2 =
      Except.error (("No active models found for evaluation").toList) ∧
    (run_evaluation env0 dbEmpty (("e").toList) [] none none).1.results = dbEmpty.results :=
  ⟨(C2_amended_orphan_failed_run env0 dbEmpty (("e").toList) [] none none
      (by with_unfolding_all decide)).1,
   (C2_amended_orphan_failed_run env0 dbEmpty (("e").toList) [] none none
      (by with_unfolding_all decide)).2.2.1⟩

theorem calculate_rankings_nil : calculate_rankings [] = [] := rfl

theorem gen_metrics_ranks_unset (rid : ℕ) (tcat : ℕ → List Char)
    (results : List EvaluationResult) (models : List LLMModel) :
    ∀ x ∈ generate_performance_metrics rid tcat results models,
      x.accuracy_rank = 0 ∧ x.speed_rank = 0 ∧ x.cost_rank = 0 ∧
        x.overall_rank = 0 := by
  intro x hx
  simp only [generate_performance_metrics] at hx
  rcases List.mem_append.mp hx with h | h
  · rcases List.mem_map.mp h with ⟨key, _, rfl⟩
    exact ⟨rfl, rfl, rfl, rfl⟩
  · rcases List.mem_flatMap.mp h with ⟨m, _, hxb⟩
    rw [overall_block_mem hxb]
    exact ⟨rfl, rfl, rfl, rfl⟩

theorem run_evaluation_failure_metrics (env : LLMModel → TestCase → CallEnv) (db : DB)
    (name : List Char) (mids : List ℕ) (tids : Option (List ℕ))
    (cats : Option (List (List Char)))
    (h : resolve_models db mids = [] ∨ resolve_test_cases db tids cats = []) :
    (run_evaluation env db name mids tids cats).1.metrics = db.metrics := by
  simp only [run_evaluation]
  rcases h with h | h
  · rw [if_pos (by rw [List.isEmpty_iff]; exact h)]
    rfl
  · by_cases h1 : (resolve_models db mids).isEmpty = true
    · rw [if_pos h1]
      rfl
    · rw [if_neg h1, if_pos (by rw [List.isEmpty_iff]; exact h)]
      rfl

theorem run_evaluation_completed_metrics (env : LLMModel → TestCase → CallEnv) (db : DB)
    (name : List Char) (mids : List ℕ) (tids : Option (List ℕ))
    (cats : Option (List (List Char)))
    (hm : resolve_models db mids ≠ []) (ht : resolve_test_cases db tids cats ≠ []) :
    (run_evaluation env db name mids tids cats).1.metrics =
      db.metrics.filter (fun mm => mm.evaluation_run_id ≠ next_run_id db) ++
      calculate_rankings
        (db.metrics.filter (fun mm => mm.evaluation_run_id = next_run_id db)) ++
      generate_performance_metrics (next_run_id db) (tcatOf db.test_cases)
        ((db.results ++ flushed_results env (next_run_id db) (resolve_models db mids)
            (resolve_test_cases db tids cats)).filter
          (fun r => r.evaluation_run_id = next_run_id db))
        (resolve_models db mids) := by
  have h1 : ¬((resolve_models db mids).isEmpty = true) := by
    rw [List.isEmpty_iff]
    exact hm
  have h2 : ¬((resolve_test_cases db tids cats).isEmpty = true) := by
    rw [List.isEmpty_iff]
    exact ht
  simp only [run_evaluation]
  rw [if_neg h1, if_neg h2]
  rfl

/-- C3 (code bug): the claimed rank permutation never reaches the database.
The session has `autoflush=False` (database.py:19) and _calculate_rankings
queries the run's metric rows (engine.py:284) before the commit at
engine.py:278 flushes the rows just added, so the ranking loop runs over no
row of a fresh run and every metric row the run persists carries unset
(NULL, modeled 0) accuracy_rank, speed_rank, cost_rank and overall_rank —
never the permutation of 1..N the ranking code was written to assign. -/
theorem C3_persisted_rank_columns_unset (env : LLMModel → TestCase → CallEnv)
    (db : DB) (name : List Char) (mids : List ℕ) (tids : Option (List ℕ))
    (cats : Option (List (List Char)))
    (hfresh : ∀ mm ∈ db.metrics, mm.evaluation_run_id ≠ next_run_id db) :
    ∀ mm ∈ (run_evaluation env db name mids tids cats).1.metrics,
      mm.evaluation_run_id = next_run_id db →
      mm.accuracy_rank = 0 ∧ mm.speed_rank = 0 ∧ mm.cost_rank = 0 ∧
        mm.overall_rank = 0 := by
  intro mm hmm hrid
  by_cases h1 : resolve_models db mids = []
  · rw [run_evaluation_failure_metrics env db name mids tids cats (Or.inl h1)] at hmm
    exact absurd hrid (hfresh mm hmm)
  · by_cases h2 : resolve_test_cases db tids cats = []
    · rw [run_evaluation_failure_metrics env db name mids tids cats (Or.inr h2)] at hmm
      exact absurd hrid (hfresh mm hmm)
    · rw [run_evaluation_completed_metrics env db name mids tids cats h1 h2] at hmm
      have hnil : db.metrics.filter
          (fun x => x.evaluation_run_id = next_run_id db) = [] := by
        rw [List.filter_eq_nil_iff]
        intro a ha
        simp only [decide_eq_true_eq]
        exact hfresh a ha
      rw [hnil, calculate_rankings_nil, List.append_nil] at hmm
      rcases List.mem_append.mp hmm with h | h
      · have h3 := (List.mem_filter.mp h).2
        simp only [decide_eq_true_eq] at h3
        exact absurd hrid h3
      · exact gen_metrics_ranks_unset _ _ _ _ mm h

set_option maxRecDepth 1000000 in
theorem C3_persisted_rank_columns_unset_witness :
    ((run_evaluation envC8 dbC8run (("n").toList) [1] none none).1.metrics.getD 0
        default).accuracy_rank = 0 ∧
    ((run_evaluation envC8 dbC8run (("n").toList) [1] none none).1.metrics.getD 0
        default).speed_rank = 0 ∧
    ((run_evaluation envC8 dbC8run (("n").toList) [1] none none).1.metrics.getD 0
        default).cost_rank = 0 ∧
    ((run_evaluation envC8 dbC8run (("n").toList) [1] none none).1.metrics.getD 0
        default).overall_rank = 0 :=
  C3_persisted_rank_columns_unset envC8 dbC8run (("n").toList) [1] none none
    (by with_unfolding_all decide)
    ((run_evaluation envC8 dbC8run (("n").toList) [1] none none).1.metrics.getD 0 default)
    (by with_unfolding_all decide) (by with_unfolding_all decide)

set_option maxRecDepth 1000000 in
/-- C4 (code bug): the overall_rank a run persists is NULL (modeled 0), not
the 1-based position under descending weighted points. The ranking pass
(engine.py:313-326) mutates only rows returned by its query, and with
`autoflush=False` (database.py:19) the run's freshly added metric rows are
still pending at that query (engine.py:284, before the commit at
engine.py:278). Concretely: a single-model mock run persists its
"reasoning" and "overall" metric rows with overall_rank 0, while ranking
that run's own "reasoning" group as the code intends would assign position
1 — and 0 is never a 1-based position. -/
theorem C4_persisted_overall_rank_is_null_not_position :
    ((run_evaluation envC8 dbC8run (("n").toList) [1] none none).1.metrics.map
      (fun mm => mm.overall_rank)) = [0, 0] ∧
    ((rank_group ((run_evaluation envC8 dbC8run (("n").toList) [1] none
        none).1.metrics.filter
        (fun mm => mm.category = ("reasoning").toList))).map
      (fun mm => mm.overall_rank)) = [1] ∧
    (0 : ℚ) ≠ 1 := by
  refine ⟨by with_unfolding_all decide, by with_unfolding_all decide, by norm_num⟩

set_option maxRecDepth 1000000 in
/-- C6 (code bug): a model whose every pair raises gets no "overall" metric
row at all. Raised pairs' error rows are added without a commit
(engine.py:89) and the session has `autoflush=False` (database.py:19), so
the aggregation query (engine.py:182) sees none of the rows pending since
the last commit. Concretely: for the one model whose provider "local" is
unregistered, the run completes, persists the pair's error row (flushed by
the commit at engine.py:278), yet produces no metric rows whatsoever — in
particular no "overall" row over that model's full result set. -/
theorem C6_all_raised_model_gets_no_overall_row :
    (run_evaluation env0 dbLocal (("n").toList) [1] none none).2 = Except.ok
      { evaluation_id := 1, status := ("completed").toList, total_results := 1,
        models_evaluated := 1, test_cases_run := 1 } ∧
    (run_evaluation env0 dbLocal (("n").toList) [1] none none).1.results.map
      (fun r => (r.model_id, r.error_message)) =
      [(1, some (("Unknown provider type: local").toList))] ∧
    (run_evaluation env0 dbLocal (("n").toList) [1] none none).1.metrics = [] := by
  refine ⟨by with_unfolding_all decide, by with_unfolding_all decide,
    by with_unfolding_all decide⟩

theorem pyFloat_nonneg (s : List Char) (v : ℚ) (h : pyFloat s = some v) : 0 ≤ v := by
  simp only [pyFloat] at h
  split at h
  · split at h
    · exact Option.noConfusion h
    · simp only [Option.some.injEq] at h
      subst h
      positivity
  · split at h
    · split at h
      · exact Option.noConfusion h
      · simp only [Option.some.injEq] at h
        subst h
        positivity
    · exact Option.noConfusion h

theorem extract_score_of_some (t g : List Char)
    (hp : findScorePattern (pyLower t) = some g) :
    extract_score t = (match pyFloat g with
      | none => none
      | some score =>
        if hasSubstr (("/10").toList) (pyLower t) then some (score / 10)
        else if hasSubstr (("/100").toList) (pyLower t) then some (score / 100)
        else if score ≤ 1 then some score
        else if score ≤ 10 then some (score / 10)
        else some (score / 100)) := by
  simp only [extract_score, hp]

theorem extract_score_of_none (t : List Char) (hp : findScorePattern (pyLower t) = none) :
    extract_score t =
      (if keywordCount positive_keywords (pyLower t) >
          keywordCount negative_keywords (pyLower t) then some (75 / 100)
      else if keywordCount negative_keywords (pyLower t) >
          keywordCount positive_keywords (pyLower t) then some (35 / 100)
      else some (55 / 100)) := by
  simp only [extract_score, hp]

/-- C7 counterexample: on the input "Score: 150" the score-extraction
utility returns 1.5, outside [0, 1] — the claimed codomain bound fails when
the parsed number exceeds its inferred scale. -/
theorem C7_counterexample :
    extract_score (("Score: 150").toList) = some (3 / 2) ∧ ¬((3 / 2 : ℚ) ≤ 1) := by
  refine ⟨by with_unfolding_all decide, by norm_num⟩

/-- C7 (amended): whenever the score-extraction utility returns (it raises
on malformed captures such as "1.2.3"), the value is nonnegative; when no
numeric pattern matches, the keyword-polarity fallback returns exactly one of
{0.75, 0.55, 0.35} (0.75 when the positive keyword count exceeds the
negative, 0.35 when negative exceeds positive, 0.55 otherwise); a numeric
match is normalized by its scale but the result may exceed 1. -/
theorem C7_amended_extract_score_range (t : List Char) (q : ℚ)
    (h : extract_score t = some q) :
    0 ≤ q ∧
    (findScorePattern (pyLower t) = none →
      (keywordCount positive_keywords (pyLower t) >
          keywordCount negative_keywords (pyLower t) → q = 75 / 100) ∧
      (keywordCount negative_keywords (pyLower t) >
          keywordCount positive_keywords (pyLower t) → q = 35 / 100) ∧
      (keywordCount positive_keywords (pyLower t) =
          keywordCount negative_keywords (pyLower t) → q = 55 / 100)) := by
  cases hp : findScorePattern (pyLower t) with
  | some g =>
    refine ⟨?_, fun hc => absurd hc (by simp [hp])⟩
    cases hf : pyFloat g with
    | none =>
      rw [extract_score_of_some t g hp, hf] at h
      have h2 : (none : Option ℚ) = some q := h
      exact Option.noConfusion h2
    | some v =>
      rw [extract_score_of_some t g hp, hf] at h
      have hv := pyFloat_nonneg g v hf
      have h2 : (if hasSubstr (("/10").toList) (pyLower t) then some (v / 10)
          else if hasSubstr (("/100").toList) (pyLower t) then some (v / 100)
          else if v ≤ 1 then some v
          else if v ≤ 10 then some (v / 10)
          else some (v / 100)) = some q := h
      split_ifs at h2 <;> injection h2 with h2 <;> subst h2 <;>
        first
          | exact hv
          | exact div_nonneg hv (by norm_num)
  | none =>
    rw [extract_score_of_none t hp] at h
    split_ifs at h with h1 h2 <;> simp only [Option.some.injEq] at h <;> subst h
    · refine ⟨by norm_num, fun _ => ⟨fun _ => rfl, fun hc => by omega, fun hc => by omega⟩⟩
    · refine ⟨by norm_num, fun _ => ⟨fun hc => by omega, fun _ => rfl, fun hc => by omega⟩⟩
    · refine ⟨by norm_num, fun _ => ⟨fun hc => by omega, fun hc => by omega, fun _ => rfl⟩⟩

theorem C7_amended_extract_score_range_witness :
    extract_score (("good").toList) = some (75 / 100) ∧ (0 : ℚ) ≤ 75 / 100 :=
  ⟨by with_unfolding_all decide,
   (C7_amended_extract_score_range (("good").toList) (75 / 100)
     (by with_unfolding_all decide)).1⟩

/-- C8: for every successful pair (no error), the persisted cost_usd equals
tokens_used / 1000 × the model's cost_per_1k_tokens exactly — cost is a
deterministic function of tokens_used and the model's rate. -/
theorem C8_cost_deterministic (env : LLMModel → TestCase → CallEnv) (rid : ℕ)
    (m : LLMModel) (tc : TestCase) (r : EvaluationResult)
    (h : evaluate_single_case env rid m tc = Except.ok r)
    (he : r.error_message = none) :
    r.cost_usd = (r.tokens_used : ℚ) / 1000 * m.cost_per_1k_tokens := by
  rcases evaluate_single_case_ok_facts env rid m tc r h with ⟨_, _, _, _, hc, _⟩
  exact hc he

set_option maxRecDepth 1000000 in
theorem C8_cost_deterministic_witness :
    evaluate_single_case envC8 1 mC8 tC8 = Except.ok rC8 ∧ rC8.error_message = none ∧
    rC8.cost_usd = (rC8.tokens_used : ℚ) / 1000 * mC8.cost_per_1k_tokens :=
  ⟨by with_unfolding_all decide, by with_unfolding_all decide,
   C8_cost_deterministic envC8 1 mC8 tC8 rC8 (by with_unfolding_all decide)
     (by with_unfolding_all decide)⟩

/-- C9: a model configuration without a "provider" key silently defaults to
the "mock" provider type; the unknown-provider error is raised exactly when
an explicitly supplied provider type is not among the registered keys. -/
theorem C9_missing_provider_key_defaults_to_mock :
    create_provider none = Except.ok ProviderType.mock ∧
    ∀ s : List Char, (∃ e, create_provider (some s) = Except.error e) ↔
      (s ≠ ("openai").toList ∧ s ≠ ("anthropic").toList ∧ s ≠ ("mock").toList) := by
  refine ⟨rfl, ?_⟩
  intro s
  constructor
  · rintro ⟨e, he⟩
    rw [create_provider] at he
    simp only [Option.getD_some] at he
    split_ifs at he with h1 h2 h3
    exact ⟨h1, h2, h3⟩
  · rintro ⟨h1, h2, h3⟩
    refine ⟨("Unknown provider type: ").toList ++ s, ?_⟩
    rw [create_provider]
    simp only [Option.getD_some]
    rw [if_neg h1, if_neg h2, if_neg h3]

set_option maxRecDepth 100000 in
theorem C9_missing_provider_key_defaults_to_mock_witness :
    create_provider none = Except.ok ProviderType.mock ∧
    ∃ e, create_provider (some (("local").toList)) = Except.error e :=
  ⟨C9_missing_provider_key_defaults_to_mock.1,
   (C9_missing_provider_key_defaults_to_mock.2 (("local").toList)).mpr
     ⟨by with_unfolding_all decide, by with_unfolding_all decide,
      by with_unfolding_all decide⟩⟩

set_option maxRecDepth 1000000 in
/-- C10: for every test case and every model output (including the empty
string), the reasoning evaluator returns a score in [0.5, 1.0]: the
heuristic starts from a base of 5.0 on the 0-10 scale, only ever adds
bonuses, caps at 10.0, and the extraction step divides by 10, so the
reasoning score can never fall below 0.5. -/
theorem C10_reasoning_score_bounds (tc : TestCase) (model_response : List Char) :
    ∃ q : ℚ, (reasoning_evaluate tc model_response).map Prod.fst = Except.ok q ∧
      1 / 2 ≤ q ∧ q ≤ 1 := by
  rw [reasoning_evaluate]
  simp only [reasoning_mock_evaluation]
  split_ifs <;>
    first
      | exact ⟨1, by with_unfolding_all decide, by norm_num, by norm_num⟩
      | exact ⟨9 / 10, by with_unfolding_all decide, by norm_num, by norm_num⟩
      | exact ⟨4 / 5, by with_unfolding_all decide, by norm_num, by norm_num⟩
      | exact ⟨7 / 10, by with_unfolding_all decide, by norm_num, by norm_num⟩
      | exact ⟨3 / 5, by with_unfolding_all decide, by norm_num, by norm_num⟩
      | exact ⟨1 / 2, by with_unfolding_all decide, by norm_num, by norm_num⟩

set_option maxRecDepth 1000000 in
theorem calculate_rankings_overall_position_example :
    0 < (cr_group msC4 (("a").toList)).length ∧
    ((cr_group msC4 (("a").toList)).getD 0 default).overall_rank =
      (((1 + (List.range (cr_group msC4 (("a").toList)).length).countP (fun k =>
        decide (spec_points (cr_group msC4 (("a").toList)).length
            ((cr_group msC4 (("a").toList)).getD 0 default) <
          spec_points (cr_group msC4 (("a").toList)).length
            ((cr_group msC4 (("a").toList)).getD k default) ∨
          (spec_points (cr_group msC4 (("a").toList)).length
              ((cr_group msC4 (("a").toList)).getD k default) =
            spec_points (cr_group msC4 (("a").toList)).length
              ((cr_group msC4 (("a").toList)).getD 0 default) ∧
            k < 0)))) : ℕ) : ℚ) :=
  ⟨by with_unfolding_all decide,
   calculate_rankings_overall_position msC4 (("a").toList) 0
     (by with_unfolding_all decide)⟩

theorem C5_failed_attempt_counts_only_in_total_witness :
    pyFalsy rErrC5.error_message = false ∧
    (stats_metric 1 tcatC5 ([rOkC5] ++ [rErrC5])
        (rErrC5.model_id, tcatC5 rErrC5.test_case_id)).success_rate =
      (((group_rows tcatC5 [rOkC5] (rErrC5.model_id, tcatC5 rErrC5.test_case_id)).filter
          is_success).length : ℚ) /
        (((group_rows tcatC5 [rOkC5]
          (rErrC5.model_id, tcatC5 rErrC5.test_case_id)).length : ℚ) + 1) :=
  ⟨by decide,
   (C5_failed_attempt_counts_only_in_total.2 1 tcatC5 [rOkC5] rErrC5
     (by decide)).2.2.2.2.2.2⟩

set_option maxRecDepth 1000000 in
theorem gen_metrics_overall_row_fresh_mean_example :
    (generate_performance_metrics 1 (fun _ => ("reasoning").toList)
        (run_pairs envC8 1 [mC8] [tC8]) [mC8]).filter
        (fun y => y.category = ("overall").toList && y.model_id = mC8.id) =
      [overall_metric 1 (run_pairs envC8 1 [mC8] [tC8]) mC8] :=
  (gen_metrics_overall_row_fresh_mean envC8 1 [mC8] [tC8] (fun _ => ("reasoning").toList) mC8
    (by decide) (by decide)
    (by with_unfolding_all decide)
    (by with_unfolding_all decide)).1
